import Mathlib

/- Shallow embedding of the simulated brokerage ledger: account and holding
entities, the transaction record, the funds service (deposit/withdraw), the
trading service (buy/sell shares), the TTL price cache, and the in-memory
repositories. Monetary amounts and prices (Python Decimal) are modelled as
rationals; share quantities (Python int) as integers; timestamps and the
cache clock as natural numbers supplied explicitly by the caller, since the
source reads an ambient wall clock. Fresh transaction identifiers (uuid4 in
the source) are modelled by an explicit counter threaded through the state:
the property that matters is that each construction draws a new identifier
rather than copying an old one. Exceptions raised by the source are modelled
with an explicit error type; an operation that mutates state before raising
returns the mutated state alongside the error, matching the in-place
mutation semantics of the source. -/

set_option maxRecDepth 4000

deriving instance DecidableEq for Except

/-- Errors corresponding to the exception raise sites in the source. -/
inductive Err where
  | unsupportedSymbol
  | insufficientFunds
  | notEnoughShares
  | negativeBalance
  | amountOutOfRange
  | insufficientBalance
  | symbolRequired
  | quantityRequired
  | totalNotPositive
  | divisionByZero
deriving Repr, DecidableEq

/-- Truth of an Except being a success, as a Bool. -/
def isOkB {α : Type} : Except Err α → Bool
  | Except.ok _ => true
  | Except.error _ => false

/-- Association list lookup with propositional key comparison, modelling
Python dict.get. -/
def alistLookup {β : Type} : List (String × β) → String → Option β
  | [], _ => none
  | (k0, v) :: rest, k => if k0 = k then some v else alistLookup rest k

/-- Association list insert or update, modelling Python dict assignment. -/
def alistSet {β : Type} : List (String × β) → String → β → List (String × β)
  | [], k, v => [(k, v)]
  | (k0, v0) :: rest, k, v =>
      if k0 = k then (k, v) :: rest else (k0, v0) :: alistSet rest k v

/-- Association list removal, modelling Python del on a dict key. -/
def alistErase {β : Type} (l : List (String × β)) (k : String) : List (String × β) :=
  l.filter (fun kv => kv.1 ≠ k)

/- Configuration constants from config.py. -/

def SUPPORTED_SYMBOLS : List String := ["AAPL", "TSLA", "GOOGL"]

def MIN_DEPOSIT_AMOUNT : ℚ := 1

def MAX_DEPOSIT_AMOUNT : ℚ := 1000000

def MIN_WITHDRAWAL_AMOUNT : ℚ := 1 / 100

def MAX_WITHDRAWAL_AMOUNT : ℚ := 1000000

def PRICE_CACHE_TTL_MINUTES : Nat := 5

def SIMULATED_PRICES : List (String × ℚ) :=
  [("AAPL", 145), ("TSLA", 650), ("GOOGL", 2800)]

/- Ledger entities from account_core.py, trading_engine.py and
transaction_core.py. -/

/-- Account entity from account_core.py. -/
structure Account where
  account_id : Nat
  user_id : Nat
  cash_balance : ℚ
  total_deposits : ℚ
  total_withdrawals : ℚ
  created_at : Nat
deriving Repr, DecidableEq

/-- Account construction with zero balances, as in app_state.create_user. -/
def Account.create (account_id user_id now : Nat) : Account :=
  { account_id := account_id, user_id := user_id, cash_balance := 0,
    total_deposits := 0, total_withdrawals := 0, created_at := now }

/-- Account.update_balance: adds amount, raising if the result would be
negative. -/
def Account.update_balance (a : Account) (amount : ℚ) : Except Err Account :=
  let new_balance := a.cash_balance + amount
  if new_balance < 0 then Except.error Err.negativeBalance
  else Except.ok { a with cash_balance := new_balance }

/-- Account.can_withdraw. -/
def Account.can_withdraw (a : Account) (amount : ℚ) : Bool :=
  decide (0 ≤ a.cash_balance - amount)

/-- Holding entity from trading_engine.py. -/
structure Holding where
  account_id : Nat
  symbol : String
  quantity : Int
  avg_cost_basis : ℚ
  last_updated : Nat
deriving Repr, DecidableEq

/-- Holding.can_sell. -/
def Holding.can_sell (h : Holding) (quantity : Int) : Bool :=
  decide (quantity ≤ h.quantity)

/-- Holding.update_average_cost: divides the given total cost by the current
quantity plus new_shares (the quantity has already been incremented by the
caller add_shares). Decimal division by zero raises in the source, modelled
by the error branch. -/
def Holding.update_average_cost (h : Holding) (now : Nat) (new_shares : Int)
    (total_cost : ℚ) : Except Err Holding :=
  if h.quantity + new_shares = 0 then Except.error Err.divisionByZero
  else Except.ok { h with
    avg_cost_basis := total_cost / ((h.quantity + new_shares : Int) : ℚ),
    last_updated := now }

/-- Holding.add_shares: computes total cost from the old quantity, increments
the quantity, then recomputes the average cost. -/
def Holding.add_shares (h : Holding) (now : Nat) (quantity : Int)
    (price_per_share : ℚ) : Except Err Holding :=
  let total_cost := (h.quantity : ℚ) * h.avg_cost_basis
      + (quantity : ℚ) * price_per_share
  let h1 := { h with quantity := h.quantity + quantity }
  h1.update_average_cost now quantity total_cost

/-- Holding.remove_shares: raises when more shares are removed than held. -/
def Holding.remove_shares (h : Holding) (quantity : Int) : Except Err Holding :=
  if h.quantity < quantity then Except.error Err.notEnoughShares
  else Except.ok { h with quantity := h.quantity - quantity }

/-- Transaction status enumeration from transaction_core.py. -/
inductive TransactionStatus where
  | PENDING
  | COMPLETED
  | FAILED
deriving Repr, DecidableEq

/-- Transaction type enumeration from transaction_core.py. -/
inductive TransactionType where
  | DEPOSIT
  | WITHDRAWAL
  | BUY
  | SELL
deriving Repr, DecidableEq

/-- Transaction record from transaction_core.py. -/
structure Transaction where
  transaction_id : Nat
  account_id : Nat
  transaction_type : TransactionType
  total_amount : ℚ
  transaction_timestamp : Nat
  symbol : Option String
  quantity : Option Int
  price_per_share : Option ℚ
  status : TransactionStatus
  failure_reason : Option String
deriving Repr, DecidableEq

/-- Transaction construction: the dataclass generates a fresh identifier and
a creation timestamp (modelled by the transaction_id and now parameters,
supplied fresh by the caller), then the post-init hook validates the
payload. -/
def Transaction.make (transaction_id now account_id : Nat)
    (transaction_type : TransactionType) (total_amount : ℚ)
    (symbol : Option String) (quantity : Option Int)
    (price_per_share : Option ℚ) (status : TransactionStatus)
    (failure_reason : Option String) : Except Err Transaction :=
  if (transaction_type = TransactionType.BUY ∨
      transaction_type = TransactionType.SELL) ∧ symbol = none then
    Except.error Err.symbolRequired
  else if (transaction_type = TransactionType.BUY ∨
      transaction_type = TransactionType.SELL) ∧ quantity = none then
    Except.error Err.quantityRequired
  else if total_amount ≤ 0 then
    Except.error Err.totalNotPositive
  else
    Except.ok
      { transaction_id := transaction_id, account_id := account_id,
        transaction_type := transaction_type, total_amount := total_amount,
        transaction_timestamp := now, symbol := symbol, quantity := quantity,
        price_per_share := price_per_share, status := status,
        failure_reason := failure_reason }

/-- Transaction replace-status helper: constructs a new Transaction (which
therefore draws a fresh identifier and timestamp) copying the payload fields
and setting the new status and reason. -/
def Transaction.replace_status (t : Transaction) (fresh_id now : Nat)
    (new_status : TransactionStatus) (reason : Option String) :
    Except Err Transaction :=
  Transaction.make fresh_id now t.account_id t.transaction_type t.total_amount
    t.symbol t.quantity t.price_per_share new_status reason

/-- Transaction.mark_as_completed. -/
def Transaction.mark_as_completed (t : Transaction) (fresh_id now : Nat) :
    Except Err Transaction :=
  t.replace_status fresh_id now TransactionStatus.COMPLETED none

/-- Transaction.mark_as_failed. -/
def Transaction.mark_as_failed (t : Transaction) (fresh_id now : Nat)
    (reason : String) : Except Err Transaction :=
  t.replace_status fresh_id now TransactionStatus.FAILED (some reason)

/-- Well-formedness established by the post-init validation of the source
for every Transaction it actually constructs. -/
def Transaction.wf (t : Transaction) : Prop :=
  ((t.transaction_type = TransactionType.BUY ∨
    t.transaction_type = TransactionType.SELL) →
      t.symbol ≠ none ∧ t.quantity ≠ none) ∧ 0 < t.total_amount

/- Price service from reporting_and_pricing.py. The calls field counts the
number of get_price invocations, instrumenting how often the oracle is
consulted; it influences nothing else. -/

/-- PriceService state: per-symbol cache of price and fetch timestamp, the
configured supported set and TTL, and the consultation counter. -/
structure PriceService where
  cache : List (String × (ℚ × Nat))
  supported_symbols : List String
  cache_ttl_minutes : Nat
  calls : Nat
deriving Repr, DecidableEq

/-- PriceService initial state as built by the constructor. -/
def PriceService.init : PriceService :=
  { cache := [], supported_symbols := SUPPORTED_SYMBOLS,
    cache_ttl_minutes := PRICE_CACHE_TTL_MINUTES, calls := 0 }

/-- PriceService.is_supported_symbol. -/
def PriceService.is_supported_symbol (ps : PriceService) (symbol : String) :
    Bool :=
  ps.supported_symbols.contains symbol

/-- PriceService update-cache helper: stores the price with a fresh
timestamp. -/
def PriceService.update_cache (ps : PriceService) (now : Nat) (symbol : String)
    (price : ℚ) : PriceService :=
  { ps with cache := alistSet ps.cache symbol (price, now) }

/-- PriceService fetch helper: reads the static simulated price table
(defaulting to zero) and updates the cache. -/
def PriceService.fetch_price (ps : PriceService) (now : Nat) (symbol : String) :
    ℚ × PriceService :=
  let price := (alistLookup SIMULATED_PRICES symbol).getD 0
  (price, ps.update_cache now symbol price)

/-- PriceService.get_price: rejects unsupported symbols; on a cache entry
younger than the TTL returns the cached price without re-fetching; otherwise
fetches, caches and returns. Always returns the post-call service state. -/
def PriceService.get_price (ps0 : PriceService) (now : Nat) (symbol : String) :
    Except Err ℚ × PriceService :=
  let ps := { ps0 with calls := ps0.calls + 1 }
  if ps.is_supported_symbol symbol then
    match alistLookup ps.cache symbol with
    | some pt =>
        if now - pt.2 < ps.cache_ttl_minutes then (Except.ok pt.1, ps)
        else
          let r := ps.fetch_price now symbol
          (Except.ok r.1, r.2)
    | none =>
        let r := ps.fetch_price now symbol
        (Except.ok r.1, r.2)
  else
    (Except.error Err.unsupportedSymbol, ps)

/- Repositories from app_state.py, viewed through the adapter that binds the
single account: the holdings store maps symbol to Holding. -/

/-- HoldingsRepository.save: stores the holding when its quantity is
positive, removes the entry when the quantity has dropped to zero or
below and an entry exists, and otherwise leaves the store unchanged. -/
def HoldingsRepository.save (store : List (String × Holding)) (h : Holding) :
    List (String × Holding) :=
  if 0 < h.quantity then alistSet store h.symbol h
  else if (alistLookup store h.symbol).isSome then alistErase store h.symbol
  else store

/-- Whole-ledger state: the account, the holdings store for that account,
the two transaction stores (funds service list and trading repository), the
shared price service, and the fresh-identifier counter. -/
structure LedgerState where
  account : Account
  holdings : List (String × Holding)
  funds_transactions : List Transaction
  trade_transactions : List Transaction
  price_service : PriceService
  next_id : Nat
deriving Repr, DecidableEq

/-- Initial ledger state for a freshly created account. -/
def initState (account_id user_id now : Nat) : LedgerState :=
  { account := Account.create account_id user_id now, holdings := [],
    funds_transactions := [], trade_transactions := [],
    price_service := PriceService.init, next_id := 0 }

/- Funds validator and service from funds_management.py. -/

/-- FundsValidator amount-range check. -/
def FundsValidator.validate_amount (amount min_amount max_amount : ℚ) :
    Except Err Unit :=
  if amount < min_amount ∨ amount > max_amount then
    Except.error Err.amountOutOfRange
  else Except.ok ()

/-- FundsValidator balance-sufficiency check. -/
def FundsValidator.validate_balance (account : Account) (amount : ℚ) :
    Except Err Unit :=
  if account.cash_balance < amount then Except.error Err.insufficientBalance
  else Except.ok ()

/-- FundsValidator.validate_deposit. -/
def FundsValidator.validate_deposit (account : Account) (amount : ℚ) :
    Except Err Unit :=
  FundsValidator.validate_amount amount MIN_DEPOSIT_AMOUNT MAX_DEPOSIT_AMOUNT

/-- FundsValidator.validate_withdrawal: amount-range check first (against the
minimum and the literal upper bound written in the source), then the balance
check. -/
def FundsValidator.validate_withdrawal (account : Account) (amount : ℚ) :
    Except Err Unit :=
  match FundsValidator.validate_amount amount MIN_WITHDRAWAL_AMOUNT 1000000 with
  | Except.error e => Except.error e
  | Except.ok _ => FundsValidator.validate_balance account amount

/-- FundsService transaction construction and append, returning the new
transaction identifier. -/
def FundsService.create_transaction (st : LedgerState) (now : Nat)
    (transaction_type : TransactionType) (amount : ℚ) :
    Except Err Nat × LedgerState :=
  match Transaction.make st.next_id now st.account.account_id transaction_type
      amount none none none TransactionStatus.COMPLETED none with
  | Except.error e => (Except.error e, st)
  | Except.ok transaction =>
      (Except.ok transaction.transaction_id,
       { st with
          funds_transactions := st.funds_transactions ++ [transaction],
          next_id := st.next_id + 1 })

/-- FundsService.deposit: validate, then mutate balance and total deposits,
then record the transaction. A failure after the mutation leaves the
mutation in place, as in the source. -/
def FundsService.deposit (st : LedgerState) (now : Nat) (amount : ℚ) :
    Except Err Nat × LedgerState :=
  match FundsValidator.validate_deposit st.account amount with
  | Except.error e => (Except.error e, st)
  | Except.ok _ =>
      let st1 := { st with account := { st.account with
          cash_balance := st.account.cash_balance + amount,
          total_deposits := st.account.total_deposits + amount } }
      FundsService.create_transaction st1 now TransactionType.DEPOSIT amount

/-- FundsService.withdraw: validate, then mutate balance and total
withdrawals, then record the transaction. -/
def FundsService.withdraw (st : LedgerState) (now : Nat) (amount : ℚ) :
    Except Err Nat × LedgerState :=
  match FundsValidator.validate_withdrawal st.account amount with
  | Except.error e => (Except.error e, st)
  | Except.ok _ =>
      let st1 := { st with account := { st.account with
          cash_balance := st.account.cash_balance - amount,
          total_withdrawals := st.account.total_withdrawals + amount } }
      FundsService.create_transaction st1 now TransactionType.WITHDRAWAL amount

/- Trading validator and service from trading_engine.py. -/

/-- TradingValidator symbol check against the literal list in the source. -/
def TradingValidator.validate_symbol (symbol : String) : Except Err Unit :=
  if symbol ∈ ["AAPL", "TSLA", "GOOGL"] then Except.ok ()
  else Except.error Err.unsupportedSymbol

/-- TradingValidator affordability check: fetches the price from the oracle
(mutating the shared cache) and compares the total cost with the balance. -/
def TradingValidator.validate_affordability (st : LedgerState) (now : Nat)
    (symbol : String) (quantity : Int) : Except Err Unit × LedgerState :=
  let r := st.price_service.get_price now symbol
  let st1 := { st with price_service := r.2 }
  match r.1 with
  | Except.error e => (Except.error e, st1)
  | Except.ok price_per_share =>
      let total_cost := price_per_share * (quantity : ℚ)
      if st1.account.cash_balance < total_cost then
        (Except.error Err.insufficientFunds, st1)
      else (Except.ok (), st1)

/-- TradingValidator share-availability check: the holding must exist and
hold at least the requested quantity. -/
def TradingValidator.validate_share_availability (st : LedgerState)
    (symbol : String) (quantity : Int) : Except Err Unit :=
  match alistLookup st.holdings symbol with
  | none => Except.error Err.notEnoughShares
  | some holding =>
      if holding.quantity < quantity then Except.error Err.notEnoughShares
      else Except.ok ()

/-- TradingValidator.validate_buy: symbol check then affordability check. -/
def TradingValidator.validate_buy (st : LedgerState) (now : Nat)
    (symbol : String) (quantity : Int) : Except Err Unit × LedgerState :=
  match TradingValidator.validate_symbol symbol with
  | Except.error e => (Except.error e, st)
  | Except.ok _ => TradingValidator.validate_affordability st now symbol quantity

/-- TradingValidator.validate_sell: symbol check then availability check. -/
def TradingValidator.validate_sell (st : LedgerState) (symbol : String)
    (quantity : Int) : Except Err Unit × LedgerState :=
  match TradingValidator.validate_symbol symbol with
  | Except.error e => (Except.error e, st)
  | Except.ok _ =>
      match TradingValidator.validate_share_availability st symbol quantity with
      | Except.error e => (Except.error e, st)
      | Except.ok _ => (Except.ok (), st)

/-- TradingService balance-update helper, delegating to
Account.update_balance. -/
def TradingService.update_account_balance (st : LedgerState) (amount : ℚ) :
    Except Err Unit × LedgerState :=
  match st.account.update_balance amount with
  | Except.error e => (Except.error e, st)
  | Except.ok account => (Except.ok (), { st with account := account })

/-- TradingService holdings-update helper: fetches the holding (creating an
empty one when absent), adds shares for a positive quantity or removes the
negated quantity otherwise, then saves through the repository. -/
def TradingService.update_holdings (st : LedgerState) (now : Nat)
    (symbol : String) (quantity : Int) (price_per_share : ℚ) :
    Except Err Unit × LedgerState :=
  let holding := match alistLookup st.holdings symbol with
    | some h => h
    | none =>
        { account_id := st.account.account_id, symbol := symbol,
          quantity := 0, avg_cost_basis := 0, last_updated := now }
  let r := if 0 < quantity then holding.add_shares now quantity price_per_share
    else holding.remove_shares (-quantity)
  match r with
  | Except.error e => (Except.error e, st)
  | Except.ok holding1 =>
      (Except.ok (),
       { st with holdings := HoldingsRepository.save st.holdings holding1 })

/-- TradingService buy execution: fetches the price again, debits the total
cost, updates the holding, then constructs and appends the COMPLETED BUY
transaction. An error part-way through returns the partially mutated
state. -/
def TradingService.create_buy_transaction (st : LedgerState) (now : Nat)
    (symbol : String) (quantity : Int) : Except Err Unit × LedgerState :=
  let r := st.price_service.get_price now symbol
  let st1 := { st with price_service := r.2 }
  match r.1 with
  | Except.error e => (Except.error e, st1)
  | Except.ok price_per_share =>
      let total_cost := price_per_share * (quantity : ℚ)
      match TradingService.update_account_balance st1 (-total_cost) with
      | (Except.error e, st2) => (Except.error e, st2)
      | (Except.ok _, st2) =>
          match TradingService.update_holdings st2 now symbol quantity
              price_per_share with
          | (Except.error e, st3) => (Except.error e, st3)
          | (Except.ok _, st3) =>
              match Transaction.make st3.next_id now st3.account.account_id
                  TransactionType.BUY total_cost (some symbol) (some quantity)
                  (some price_per_share) TransactionStatus.COMPLETED none with
              | Except.error e => (Except.error e, st3)
              | Except.ok transaction =>
                  (Except.ok (),
                   { st3 with
                      trade_transactions :=
                        st3.trade_transactions ++ [transaction],
                      next_id := st3.next_id + 1 })

/-- TradingService sell execution: fetches the price, credits the revenue,
updates the holding with the negated quantity, then constructs and appends
the COMPLETED SELL transaction. -/
def TradingService.create_sell_transaction (st : LedgerState) (now : Nat)
    (symbol : String) (quantity : Int) : Except Err Unit × LedgerState :=
  let r := st.price_service.get_price now symbol
  let st1 := { st with price_service := r.2 }
  match r.1 with
  | Except.error e => (Except.error e, st1)
  | Except.ok price_per_share =>
      let total_revenue := price_per_share * (quantity : ℚ)
      match TradingService.update_account_balance st1 total_revenue with
      | (Except.error e, st2) => (Except.error e, st2)
      | (Except.ok _, st2) =>
          match TradingService.update_holdings st2 now symbol (-quantity)
              price_per_share with
          | (Except.error e, st3) => (Except.error e, st3)
          | (Except.ok _, st3) =>
              match Transaction.make st3.next_id now st3.account.account_id
                  TransactionType.SELL total_revenue (some symbol)
                  (some quantity) (some price_per_share)
                  TransactionStatus.COMPLETED none with
              | Except.error e => (Except.error e, st3)
              | Except.ok transaction =>
                  (Except.ok (),
                   { st3 with
                      trade_transactions :=
                        st3.trade_transactions ++ [transaction],
                      next_id := st3.next_id + 1 })

/-- TradingService.buy_shares: validate then execute; exceptions propagate
unchanged (the handler in the source only logs and re-raises). -/
def TradingService.buy_shares (st : LedgerState) (now : Nat) (symbol : String)
    (quantity : Int) : Except Err Unit × LedgerState :=
  match TradingValidator.validate_buy st now symbol quantity with
  | (Except.error e, st1) => (Except.error e, st1)
  | (Except.ok _, st1) =>
      TradingService.create_buy_transaction st1 now symbol quantity

/-- TradingService.sell_shares: validate then execute. -/
def TradingService.sell_shares (st : LedgerState) (now : Nat) (symbol : String)
    (quantity : Int) : Except Err Unit × LedgerState :=
  match TradingValidator.validate_sell st symbol quantity with
  | (Except.error e, st1) => (Except.error e, st1)
  | (Except.ok _, st1) =>
      TradingService.create_sell_transaction st1 now symbol quantity

/- Operation sequences over the ledger. -/

/-- One external operation against the ledger, carrying the wall-clock time
at which it runs. -/
inductive Op where
  | deposit (now : Nat) (amount : ℚ)
  | withdraw (now : Nat) (amount : ℚ)
  | buy (now : Nat) (symbol : String) (quantity : Int)
  | sell (now : Nat) (symbol : String) (quantity : Int)
deriving Repr, DecidableEq

/-- Run one operation, returning whether it succeeded and the post state
(the state at the raise point when it failed). -/
def runOp (st : LedgerState) (op : Op) : Except Err Unit × LedgerState :=
  match op with
  | Op.deposit now amount =>
      let r := FundsService.deposit st now amount
      (r.1.map (fun _ => ()), r.2)
  | Op.withdraw now amount =>
      let r := FundsService.withdraw st now amount
      (r.1.map (fun _ => ()), r.2)
  | Op.buy now symbol quantity =>
      TradingService.buy_shares st now symbol quantity
  | Op.sell now symbol quantity =>
      TradingService.sell_shares st now symbol quantity

/-- Run a sequence of operations, keeping the post state of each step. -/
def reachFrom (st : LedgerState) (ops : List Op) : LedgerState :=
  ops.foldl (fun s op => (runOp s op).2) st

/-- Ledger state after depositing 1000 into a fresh account. -/
def stAfterDeposit1000 : LedgerState :=
  { account := { account_id := 0, user_id := 0, cash_balance := 1000,
                 total_deposits := 1000, total_withdrawals := 0,
                 created_at := 0 },
    holdings := [],
    funds_transactions :=
      [{ transaction_id := 0, account_id := 0,
         transaction_type := TransactionType.DEPOSIT, total_amount := 1000,
         transaction_timestamp := 0, symbol := none, quantity := none,
         price_per_share := none, status := TransactionStatus.COMPLETED,
         failure_reason := none }],
    trade_transactions := [],
    price_service := PriceService.init, next_id := 1 }

/-- Ledger state after depositing 1725 into a fresh account. -/
def stAfterDeposit1725 : LedgerState :=
  { account := { account_id := 0, user_id := 0, cash_balance := 1725,
                 total_deposits := 1725, total_withdrawals := 0,
                 created_at := 0 },
    holdings := [],
    funds_transactions :=
      [{ transaction_id := 0, account_id := 0,
         transaction_type := TransactionType.DEPOSIT, total_amount := 1725,
         transaction_timestamp := 0, symbol := none, quantity := none,
         price_per_share := none, status := TransactionStatus.COMPLETED,
         failure_reason := none }],
    trade_transactions := [],
    price_service := PriceService.init, next_id := 1 }

/-- Ledger state after depositing 1725 then buying 5 AAPL at 145. -/
def stBalance1000Aapl5 : LedgerState :=
  { account := { account_id := 0, user_id := 0, cash_balance := 1000,
                 total_deposits := 1725, total_withdrawals := 0,
                 created_at := 0 },
    holdings :=
      [("AAPL", { account_id := 0, symbol := "AAPL", quantity := 5,
                  avg_cost_basis := 145 / 2, last_updated := 0 })],
    funds_transactions :=
      [{ transaction_id := 0, account_id := 0,
         transaction_type := TransactionType.DEPOSIT, total_amount := 1725,
         transaction_timestamp := 0, symbol := none, quantity := none,
         price_per_share := none, status := TransactionStatus.COMPLETED,
         failure_reason := none }],
    trade_transactions :=
      [{ transaction_id := 1, account_id := 0,
         transaction_type := TransactionType.BUY, total_amount := 725,
         transaction_timestamp := 0, symbol := some "AAPL",
         quantity := some 5, price_per_share := some 145,
         status := TransactionStatus.COMPLETED, failure_reason := none }],
    price_service := { cache := [("AAPL", 145, 0)],
                       supported_symbols := ["AAPL", "TSLA", "GOOGL"],
                       cache_ttl_minutes := 5, calls := 2 },
    next_id := 2 }

/-- Ledger state after depositing 2000 then buying 1 AAPL at 145. -/
def stBalance1855Aapl1 : LedgerState :=
  { account := { account_id := 0, user_id := 0, cash_balance := 1855,
                 total_deposits := 2000, total_withdrawals := 0,
                 created_at := 0 },
    holdings :=
      [("AAPL", { account_id := 0, symbol := "AAPL", quantity := 1,
                  avg_cost_basis := 145 / 2, last_updated := 0 })],
    funds_transactions :=
      [{ transaction_id := 0, account_id := 0,
         transaction_type := TransactionType.DEPOSIT, total_amount := 2000,
         transaction_timestamp := 0, symbol := none, quantity := none,
         price_per_share := none, status := TransactionStatus.COMPLETED,
         failure_reason := none }],
    trade_transactions :=
      [{ transaction_id := 1, account_id := 0,
         transaction_type := TransactionType.BUY, total_amount := 145,
         transaction_timestamp := 0, symbol := some "AAPL",
         quantity := some 1, price_per_share := some 145,
         status := TransactionStatus.COMPLETED, failure_reason := none }],
    price_service := { cache := [("AAPL", 145, 0)],
                       supported_symbols := ["AAPL", "TSLA", "GOOGL"],
                       cache_ttl_minutes := 5, calls := 2 },
    next_id := 2 }

/-- The state stBalance1855Aapl1 with a second 1-share AAPL buy applied. -/
def stBalance1710Aapl2 : LedgerState :=
  { account := { account_id := 0, user_id := 0, cash_balance := 1710,
                 total_deposits := 2000, total_withdrawals := 0,
                 created_at := 0 },
    holdings :=
      [("AAPL", { account_id := 0, symbol := "AAPL", quantity := 2,
                  avg_cost_basis := 145 / 2, last_updated := 0 })],
    funds_transactions :=
      [{ transaction_id := 0, account_id := 0,
         transaction_type := TransactionType.DEPOSIT, total_amount := 2000,
         transaction_timestamp := 0, symbol := none, quantity := none,
         price_per_share := none, status := TransactionStatus.COMPLETED,
         failure_reason := none }],
    trade_transactions :=
      [{ transaction_id := 1, account_id := 0,
         transaction_type := TransactionType.BUY, total_amount := 145,
         transaction_timestamp := 0, symbol := some "AAPL",
         quantity := some 1, price_per_share := some 145,
         status := TransactionStatus.COMPLETED, failure_reason := none },
       { transaction_id := 2, account_id := 0,
         transaction_type := TransactionType.BUY, total_amount := 145,
         transaction_timestamp := 0, symbol := some "AAPL",
         quantity := some 1, price_per_share := some 145,
         status := TransactionStatus.COMPLETED, failure_reason := none }],
    price_service := { cache := [("AAPL", 145, 0)],
                       supported_symbols := ["AAPL", "TSLA", "GOOGL"],
                       cache_ttl_minutes := 5, calls := 4 },
    next_id := 3 }

/-- Ledger state after depositing 2000 into a fresh account. -/
def stAfterDeposit2000 : LedgerState :=
  { account := { account_id := 0, user_id := 0, cash_balance := 2000,
                 total_deposits := 2000, total_withdrawals := 0,
                 created_at := 0 },
    holdings := [],
    funds_transactions :=
      [{ transaction_id := 0, account_id := 0,
         transaction_type := TransactionType.DEPOSIT, total_amount := 2000,
         transaction_timestamp := 0, symbol := none, quantity := none,
         price_per_share := none, status := TransactionStatus.COMPLETED,
         failure_reason := none }],
    trade_transactions := [],
    price_service := PriceService.init, next_id := 1 }

/-- Invariant of the holdings store: every stored holding has strictly
positive quantity. -/
def holdingsPos (st : LedgerState) : Prop :=
  ∀ kv ∈ st.holdings, 0 < kv.2.quantity

/-- C1: the claim states that buying q shares at price p against a holding of
Q shares at average cost C yields average cost (Q*C + q*p) / (Q + q), with
qty 5 at 145 plus 5 at 155 giving 150. The code instead divides by Q + 2*q,
because add_shares increments the quantity before update_average_cost adds
new_shares again: at the spec scenario it yields average cost 100, quantity
10. This theorem evaluates the code at that input. -/
theorem C1_add_shares_divides_by_old_plus_twice_new :
    Holding.add_shares
      { account_id := 0, symbol := "AAPL", quantity := 5,
        avg_cost_basis := 145, last_updated := 0 } 1 5 155
    = Except.ok
      { account_id := 0, symbol := "AAPL", quantity := 10,
        avg_cost_basis := 100, last_updated := 1 }
    ∧ (100 : ℚ) ≠ (1500 : ℚ) / 10 := by
  with_unfolding_all (exact of_decide_eq_true rfl)

/-- Depositing 1000 into a fresh account yields stAfterDeposit1000. -/
theorem runOp_deposit1000 :
    runOp (initState 0 0 0) (Op.deposit 0 1000)
      = (Except.ok (), stAfterDeposit1000) := by
  with_unfolding_all (exact of_decide_eq_true rfl)

/-- Buying 5 AAPL from stAfterDeposit1000 succeeds and consults the oracle
twice. -/
theorem buy_from_deposit1000_calls :
    (TradingService.buy_shares stAfterDeposit1000 0 "AAPL" 5).1
      = Except.ok ()
    ∧ (TradingService.buy_shares
        stAfterDeposit1000 0 "AAPL" 5).2.price_service.calls = 2 := by
  with_unfolding_all (exact of_decide_eq_true rfl)

/-- C2 counterexample: the claim states the price oracle is consulted
exactly once per buy_shares operation. A successful buy of 5 AAPL after a
deposit of 1000 consults the oracle twice: once in the affordability
validation and once again in the execution step. -/
theorem C2_buy_consults_oracle_twice :
    let st := reachFrom (initState 0 0 0) [Op.deposit 0 1000]
    let r := TradingService.buy_shares st 0 "AAPL" 5
    st.price_service.calls = 0 ∧ r.1 = Except.ok ()
    ∧ r.2.price_service.calls = 2 := by
  have hreach : reachFrom (initState 0 0 0) [Op.deposit 0 1000]
      = stAfterDeposit1000 := by
    simp only [reachFrom, List.foldl_cons, List.foldl_nil, runOp_deposit1000]
  refine ⟨?_, ?_, ?_⟩ <;> rw [hreach]
  · rfl
  · exact buy_from_deposit1000_calls.1
  · exact buy_from_deposit1000_calls.2

/-- Depositing 1725 into a fresh account yields stAfterDeposit1725. -/
theorem runOp_deposit1725 :
    runOp (initState 0 0 0) (Op.deposit 0 1725)
      = (Except.ok (), stAfterDeposit1725) := by
  with_unfolding_all (exact of_decide_eq_true rfl)

/-- Buying 5 AAPL from stAfterDeposit1725 yields stBalance1000Aapl5. -/
theorem runOp_buy5_from_deposit1725 :
    runOp stAfterDeposit1725 (Op.buy 0 "AAPL" 5)
      = (Except.ok (), stBalance1000Aapl5) := by
  with_unfolding_all (exact of_decide_eq_true rfl)

/-- Selling -1 AAPL from stBalance1000Aapl5 fails at transaction
construction with the balance already debited to 855 and the holding
already grown to 6 shares. -/
theorem sell_neg_one_partial_effects :
    (TradingService.sell_shares stBalance1000Aapl5 0 "AAPL" (-1)).1
      = Except.error Err.totalNotPositive
    ∧ (TradingService.sell_shares
        stBalance1000Aapl5 0 "AAPL" (-1)).2.account.cash_balance = 855
    ∧ (alistLookup (TradingService.sell_shares
        stBalance1000Aapl5 0 "AAPL" (-1)).2.holdings "AAPL").map
        Holding.quantity = some 6 := by
  with_unfolding_all (exact of_decide_eq_true rfl)

/-- C3: the claim states that any buy or sell that raises leaves balance and
holdings at their pre-call values. From a state reached by depositing 1725
and buying 5 AAPL (balance 1000, AAPL quantity 5), the call
sell_shares of -1 AAPL passes validation, debits the balance to 855,
mutates the holding to quantity 6, and only then fails constructing the
SELL transaction (total amount -145 is not positive); the error is surfaced
with the partial mutations in place and no rollback. -/
theorem C3_sell_failure_surfaces_partial_state :
    (reachFrom (initState 0 0 0)
        [Op.deposit 0 1725, Op.buy 0 "AAPL" 5]).account.cash_balance = 1000
    ∧ (alistLookup (reachFrom (initState 0 0 0)
        [Op.deposit 0 1725, Op.buy 0 "AAPL" 5]).holdings "AAPL").map
        Holding.quantity = some 5
    ∧ (TradingService.sell_shares
        (reachFrom (initState 0 0 0) [Op.deposit 0 1725, Op.buy 0 "AAPL" 5])
        0 "AAPL" (-1)).1 = Except.error Err.totalNotPositive
    ∧ (TradingService.sell_shares
        (reachFrom (initState 0 0 0) [Op.deposit 0 1725, Op.buy 0 "AAPL" 5])
        0 "AAPL" (-1)).2.account.cash_balance = 855
    ∧ (alistLookup (TradingService.sell_shares
        (reachFrom (initState 0 0 0) [Op.deposit 0 1725, Op.buy 0 "AAPL" 5])
        0 "AAPL" (-1)).2.holdings "AAPL").map Holding.quantity = some 6 := by
  have hreach : reachFrom (initState 0 0 0)
      [Op.deposit 0 1725, Op.buy 0 "AAPL" 5] = stBalance1000Aapl5 := by
    simp only [reachFrom, List.foldl_cons, List.foldl_nil, runOp_deposit1725,
      runOp_buy5_from_deposit1725]
  refine ⟨?_, ?_, ?_, ?_, ?_⟩ <;> rw [hreach]
  · rfl
  · rfl
  · exact sell_neg_one_partial_effects.1
  · exact sell_neg_one_partial_effects.2.1
  · exact sell_neg_one_partial_effects.2.2

/-- C6 counterexample: the claim states withdraw fails iff the amount is
below the minimum or exceeds the balance. An account with balance 2000000
withdrawing 1500000 satisfies neither failure condition of the claim, yet
the code rejects it with the amount-range error because the range check also
enforces the 1000000 upper bound; the state is unchanged. -/
theorem C6_withdraw_rejects_in_claim_success_region :
    let st : LedgerState :=
      { account := { account_id := 0, user_id := 0, cash_balance := 2000000,
                     total_deposits := 2000000, total_withdrawals := 0,
                     created_at := 0 },
        holdings := [], funds_transactions := [], trade_transactions := [],
        price_service := PriceService.init, next_id := 0 }
    ¬ ((1500000 : ℚ) < MIN_WITHDRAWAL_AMOUNT
        ∨ st.account.cash_balance < (1500000 : ℚ))
    ∧ (FundsService.withdraw st 0 1500000).1 = Except.error Err.amountOutOfRange
    ∧ (FundsService.withdraw st 0 1500000).2 = st := by
  refine ⟨?_, ?_, ?_⟩ <;>
    norm_num [FundsService.withdraw, FundsValidator.validate_withdrawal,
      FundsValidator.validate_amount, FundsValidator.validate_balance,
      MIN_WITHDRAWAL_AMOUNT]

/-- C7 counterexample: the claim states the record produced by
mark_as_completed carries the same transaction_id and timestamp as the
original. Constructing the derived record draws a fresh identifier and a
fresh timestamp (both init-excluded default-factory fields in the source):
for a PENDING deposit with identifier 0 and timestamp 0, the derived record
has identifier 1 and timestamp 1. -/
theorem C7_mark_as_completed_changes_id_and_timestamp :
    let t : Transaction :=
      { transaction_id := 0, account_id := 7,
        transaction_type := TransactionType.DEPOSIT, total_amount := 100,
        transaction_timestamp := 0, symbol := none, quantity := none,
        price_per_share := none, status := TransactionStatus.PENDING,
        failure_reason := none }
    (t.mark_as_completed 1 1).map Transaction.transaction_id = Except.ok 1
    ∧ (t.mark_as_completed 1 1).map Transaction.transaction_timestamp
        = Except.ok 1
    ∧ t.transaction_id ≠ 1 ∧ t.transaction_timestamp ≠ 1 := by
  with_unfolding_all (exact of_decide_eq_true rfl)

/-- Reaching stBalance1855Aapl1 by deposit 2000 then buy 1 AAPL. -/
theorem reach_deposit2000_buy1 :
    reachFrom (initState 0 0 0) [Op.deposit 0 2000, Op.buy 0 "AAPL" 1]
      = stBalance1855Aapl1 := by
  have h1 : runOp (initState 0 0 0) (Op.deposit 0 2000)
      = (Except.ok (), stAfterDeposit2000) := by
    with_unfolding_all (exact of_decide_eq_true rfl)
  simp only [reachFrom, List.foldl_cons, List.foldl_nil, h1]
  with_unfolding_all (exact of_decide_eq_true rfl)

/-- Buying one more AAPL share from stBalance1855Aapl1 succeeds and yields
stBalance1710Aapl2. -/
theorem buy1_from_1855 :
    TradingService.buy_shares stBalance1855Aapl1 0 "AAPL" 1
      = (Except.ok (), stBalance1710Aapl2) := by
  with_unfolding_all (exact of_decide_eq_true rfl)

/-- Selling one AAPL share from stBalance1710Aapl2 succeeds, restores the
balance to 1855, and leaves one AAPL share in the store. -/
theorem sell1_from_1710 :
    (TradingService.sell_shares stBalance1710Aapl2 0 "AAPL" 1).1
      = Except.ok ()
    ∧ (TradingService.sell_shares
        stBalance1710Aapl2 0 "AAPL" 1).2.account.cash_balance = 1855
    ∧ (alistLookup (TradingService.sell_shares
        stBalance1710Aapl2 0 "AAPL" 1).2.holdings "AAPL").isSome = true := by
  with_unfolding_all (exact of_decide_eq_true rfl)

/-- C8 counterexample: the claim states that after a successful buy of q
shares followed by a successful sell of q shares at the same price, the
holding for the symbol is absent from the store. When a holding already
exists before the buy this fails: deposit 2000 and buy 1 AAPL, then buy 1
AAPL and sell 1 AAPL; both round-trip operations succeed and the balance
returns to its pre-buy value, but the AAPL holding is still present. -/
theorem C8_roundtrip_with_prior_holding_keeps_position :
    let st1 := reachFrom (initState 0 0 0) [Op.deposit 0 2000, Op.buy 0 "AAPL" 1]
    let r2 := TradingService.buy_shares st1 0 "AAPL" 1
    let r3 := TradingService.sell_shares r2.2 0 "AAPL" 1
    r2.1 = Except.ok () ∧ r3.1 = Except.ok ()
    ∧ r3.2.account.cash_balance = st1.account.cash_balance
    ∧ (alistLookup r3.2.holdings "AAPL").isSome = true := by
  simp only [reach_deposit2000_buy1, buy1_from_1855]
  refine ⟨trivial, sell1_from_1710.1, ?_, sell1_from_1710.2.2⟩
  rw [sell1_from_1710.2.1]
  rfl

/-- Looking up the key just set finds the new value. -/
theorem alistLookup_set_self {β : Type} (l : List (String × β)) (k : String)
    (v : β) : alistLookup (alistSet l k v) k = some v := by
  induction l with
  | nil => simp [alistSet, alistLookup]
  | cons hd tl ih =>
      obtain ⟨k0, v0⟩ := hd
      by_cases h : k0 = k
      · simp [alistSet, h, alistLookup]
      · simp [alistSet, h, alistLookup, ih]

/-- Every element of a set-updated association list is the new pair or an
old element. -/
theorem mem_alistSet {β : Type} (l : List (String × β)) (k : String) (v : β) :
    ∀ kv ∈ alistSet l k v, kv = (k, v) ∨ kv ∈ l := by
  induction l with
  | nil =>
      intro kv hkv
      simp only [alistSet, List.mem_singleton] at hkv
      exact Or.inl hkv
  | cons hd tl ih =>
      intro kv hkv
      obtain ⟨k0, v0⟩ := hd
      simp only [alistSet] at hkv
      split at hkv
      · rcases List.mem_cons.mp hkv with h | h
        · exact Or.inl h
        · exact Or.inr (List.mem_cons_of_mem _ h)
      · rcases List.mem_cons.mp hkv with h | h
        · exact Or.inr (h ▸ List.mem_cons_self _ _)
        · rcases ih kv h with h1 | h1
          · exact Or.inl h1
          · exact Or.inr (List.mem_cons_of_mem _ h1)

/-- Looking up an erased key yields nothing. -/
theorem alistLookup_erase_self {β : Type} (l : List (String × β)) (k : String) :
    alistLookup (alistErase l k) k = none := by
  induction l with
  | nil => simp [alistErase, alistLookup]
  | cons hd tl ih =>
      obtain ⟨k0, v0⟩ := hd
      by_cases h : k0 = k
      · simpa [alistErase, List.filter, h] using ih
      · simpa [alistErase, List.filter, h, alistLookup] using ih

/-- The repository save operation preserves positivity of all stored
quantities, whatever holding is saved. -/
theorem save_preserves_pos (store : List (String × Holding)) (h : Holding)
    (hstore : ∀ kv ∈ store, 0 < kv.2.quantity) :
    ∀ kv ∈ HoldingsRepository.save store h, 0 < kv.2.quantity := by
  intro kv hkv
  unfold HoldingsRepository.save at hkv
  split at hkv
  · rcases mem_alistSet store h.symbol h kv hkv with heq | hmem
    · subst heq
      assumption
    · exact hstore kv hmem
  · split at hkv
    · exact hstore kv (List.mem_of_mem_filter hkv)
    · exact hstore kv hkv

/-- A successful association-list lookup is membership with that key. -/
theorem alistLookup_mem {β : Type} (l : List (String × β)) (k : String)
    (v : β) (h : alistLookup l k = some v) : (k, v) ∈ l := by
  induction l with
  | nil => simp [alistLookup] at h
  | cons hd tl ih =>
      obtain ⟨k0, v0⟩ := hd
      simp only [alistLookup] at h
      split at h
      · obtain rfl := Option.some.inj h
        simp_all
      · exact List.mem_cons_of_mem _ (ih h)

/-- Full characterization of the trading-service balance update. -/
theorem update_account_balance_spec (st : LedgerState) (amount : ℚ) :
    (TradingService.update_account_balance st amount
        = (Except.error Err.negativeBalance, st)
      ∧ st.account.cash_balance + amount < 0)
    ∨ (TradingService.update_account_balance st amount
        = (Except.ok (), { st with account :=
            { st.account with
                cash_balance := st.account.cash_balance + amount } })
      ∧ 0 ≤ st.account.cash_balance + amount) := by
  unfold TradingService.update_account_balance Account.update_balance
  by_cases h : st.account.cash_balance + amount < 0
  · left
    constructor
    · simp [h]
    · exact h
  · right
    constructor
    · simp [h]
    · linarith [not_lt.mp h]

/-- Adding a positive number of shares to a holding with non-negative
quantity never divides by zero. -/
theorem add_shares_ne_div (h : Holding) (now : Nat) (q : Int) (p : ℚ)
    (hq : 0 < q) (hh : 0 ≤ h.quantity) :
    ¬ (Holding.add_shares h now q p = Except.error Err.divisionByZero) := by
  unfold Holding.add_shares Holding.update_average_cost
  dsimp only
  rw [if_neg (by omega : ¬ (h.quantity + q + q = 0))]
  simp

/-- Removing shares never divides. -/
theorem remove_shares_ne_div (h : Holding) (q : Int) :
    ¬ (Holding.remove_shares h q = Except.error Err.divisionByZero) := by
  unfold Holding.remove_shares
  split <;> simp

/-- The holdings update touches only the holdings store; positivity of the
stored quantities is preserved; and with a positivity-invariant store the
average-cost division never has a zero divisor, so a division-by-zero error
is never produced. -/
theorem update_holdings_spec (st : LedgerState) (now : Nat) (symbol : String)
    (q : Int) (p : ℚ) :
    (TradingService.update_holdings st now symbol q p).2.account = st.account
    ∧ (TradingService.update_holdings st now symbol q p).2.funds_transactions
        = st.funds_transactions
    ∧ (TradingService.update_holdings st now symbol q p).2.trade_transactions
        = st.trade_transactions
    ∧ (TradingService.update_holdings st now symbol q p).2.price_service
        = st.price_service
    ∧ (TradingService.update_holdings st now symbol q p).2.next_id = st.next_id
    ∧ (holdingsPos st →
        holdingsPos (TradingService.update_holdings st now symbol q p).2)
    ∧ (holdingsPos st →
        (TradingService.update_holdings st now symbol q p).1
          ≠ Except.error Err.divisionByZero) := by
  unfold TradingService.update_holdings
  dsimp only
  rcases hl : alistLookup st.holdings symbol with _ | h0 <;> dsimp only
  · split
    · rename_i e heq
      refine ⟨rfl, rfl, rfl, rfl, rfl, fun hst => hst, fun hst hcontra => ?_⟩
      obtain rfl := Except.error.inj hcontra
      by_cases hq : 0 < q
      · rw [if_pos hq] at heq
        exact add_shares_ne_div _ now q p hq (by simp) heq
      · rw [if_neg hq] at heq
        exact remove_shares_ne_div _ (-q) heq
    · refine ⟨rfl, rfl, rfl, rfl, rfl, fun hst kv hkv =>
        save_preserves_pos _ _ hst kv hkv, fun _ hcontra => by simp at hcontra⟩
  · split
    · rename_i e heq
      refine ⟨rfl, rfl, rfl, rfl, rfl, fun hst => hst, fun hst hcontra => ?_⟩
      obtain rfl := Except.error.inj hcontra
      have hpos : 0 < h0.quantity := hst _ (alistLookup_mem _ _ _ hl)
      by_cases hq : 0 < q
      · rw [if_pos hq] at heq
        exact add_shares_ne_div _ now q p hq (le_of_lt hpos) heq
      · rw [if_neg hq] at heq
        exact remove_shares_ne_div _ (-q) heq
    · refine ⟨rfl, rfl, rfl, rfl, rfl, fun hst kv hkv =>
        save_preserves_pos _ _ hst kv hkv, fun _ hcontra => by simp at hcontra⟩

/-- Full characterization of deposit: out-of-range amounts are rejected with
the state unchanged; in-range amounts increment the balance and the deposit
total, append a COMPLETED DEPOSIT transaction, and return its identifier. -/
theorem deposit_spec (st : LedgerState) (now : Nat) (amount : ℚ) :
    ((amount < MIN_DEPOSIT_AMOUNT ∨ amount > MAX_DEPOSIT_AMOUNT) →
      FundsService.deposit st now amount
        = (Except.error Err.amountOutOfRange, st))
    ∧ (¬ (amount < MIN_DEPOSIT_AMOUNT ∨ amount > MAX_DEPOSIT_AMOUNT) →
      FundsService.deposit st now amount
        = (Except.ok st.next_id,
           { st with
              account := { st.account with
                cash_balance := st.account.cash_balance + amount,
                total_deposits := st.account.total_deposits + amount },
              funds_transactions := st.funds_transactions ++
                [{ transaction_id := st.next_id,
                   account_id := st.account.account_id,
                   transaction_type := TransactionType.DEPOSIT,
                   total_amount := amount, transaction_timestamp := now,
                   symbol := none, quantity := none, price_per_share := none,
                   status := TransactionStatus.COMPLETED,
                   failure_reason := none }],
              next_id := st.next_id + 1 })) := by
  constructor
  · intro h
    unfold FundsService.deposit FundsValidator.validate_deposit
      FundsValidator.validate_amount
    rw [if_pos h]
  · intro h
    have hpos : ¬ (amount ≤ 0) := by
      unfold MIN_DEPOSIT_AMOUNT MAX_DEPOSIT_AMOUNT at h
      push_neg at h
      intro hle
      linarith [h.1]
    unfold FundsService.deposit FundsValidator.validate_deposit
      FundsValidator.validate_amount FundsService.create_transaction
      Transaction.make
    rw [if_neg h]
    dsimp only
    rw [if_neg (by simp : ¬ ((TransactionType.DEPOSIT = TransactionType.BUY ∨
          TransactionType.DEPOSIT = TransactionType.SELL) ∧
          (none : Option String) = none))]
    rw [if_neg (by simp : ¬ ((TransactionType.DEPOSIT = TransactionType.BUY ∨
          TransactionType.DEPOSIT = TransactionType.SELL) ∧
          (none : Option Int) = none))]
    rw [if_neg hpos]

/-- Full characterization of withdraw: the amount-range check (against the
minimum and the literal 1000000 bound) runs first and rejects with the state
unchanged; then the balance check rejects with the state unchanged; in-range
sufficiently-funded withdrawals decrement the balance, increment the
withdrawal total, append a COMPLETED WITHDRAWAL transaction, and return its
identifier. -/
theorem withdraw_spec (st : LedgerState) (now : Nat) (amount : ℚ) :
    ((amount < MIN_WITHDRAWAL_AMOUNT ∨ amount > 1000000) →
      FundsService.withdraw st now amount
        = (Except.error Err.amountOutOfRange, st))
    ∧ (¬ (amount < MIN_WITHDRAWAL_AMOUNT ∨ amount > 1000000) →
      st.account.cash_balance < amount →
      FundsService.withdraw st now amount
        = (Except.error Err.insufficientBalance, st))
    ∧ (¬ (amount < MIN_WITHDRAWAL_AMOUNT ∨ amount > 1000000) →
      ¬ (st.account.cash_balance < amount) →
      FundsService.withdraw st now amount
        = (Except.ok st.next_id,
           { st with
              account := { st.account with
                cash_balance := st.account.cash_balance - amount,
                total_withdrawals := st.account.total_withdrawals + amount },
              funds_transactions := st.funds_transactions ++
                [{ transaction_id := st.next_id,
                   account_id := st.account.account_id,
                   transaction_type := TransactionType.WITHDRAWAL,
                   total_amount := amount, transaction_timestamp := now,
                   symbol := none, quantity := none, price_per_share := none,
                   status := TransactionStatus.COMPLETED,
                   failure_reason := none }],
              next_id := st.next_id + 1 })) := by
  refine ⟨fun h => ?_, fun h hb => ?_, fun h hb => ?_⟩
  · unfold FundsService.withdraw FundsValidator.validate_withdrawal
      FundsValidator.validate_amount
    rw [if_pos h]
  · unfold FundsService.withdraw FundsValidator.validate_withdrawal
      FundsValidator.validate_amount FundsValidator.validate_balance
    rw [if_neg h]
    dsimp only
    rw [if_pos hb]
  · have hpos : ¬ (amount ≤ 0) := by
      unfold MIN_WITHDRAWAL_AMOUNT at h
      push_neg at h
      intro hle
      nlinarith [h.1]
    unfold FundsService.withdraw FundsValidator.validate_withdrawal
      FundsValidator.validate_amount FundsValidator.validate_balance
      FundsService.create_transaction Transaction.make
    rw [if_neg h]
    dsimp only
    rw [if_neg hb]
    dsimp only
    rw [if_neg (by simp : ¬ ((TransactionType.WITHDRAWAL = TransactionType.BUY ∨
          TransactionType.WITHDRAWAL = TransactionType.SELL) ∧
          (none : Option String) = none))]
    rw [if_neg (by simp : ¬ ((TransactionType.WITHDRAWAL = TransactionType.BUY ∨
          TransactionType.WITHDRAWAL = TransactionType.SELL) ∧
          (none : Option Int) = none))]
    rw [if_neg hpos]

/-- The price service only ever fails with the unsupported-symbol error. -/
theorem get_price_error_eq (ps : PriceService) (now : Nat) (symbol : String)
    (e : Err) (h : (ps.get_price now symbol).1 = Except.error e) :
    e = Err.unsupportedSymbol := by
  unfold PriceService.get_price at h
  dsimp only at h
  split at h
  · split at h
    · split at h <;> simp_all
    · simp_all
  · simp_all

/-- The validation stage of a buy changes at most the price cache. -/
theorem validate_buy_frame (st : LedgerState) (now : Nat) (symbol : String)
    (q : Int) :
    ∃ ps, (TradingValidator.validate_buy st now symbol q).2
      = { st with price_service := ps } := by
  unfold TradingValidator.validate_buy TradingValidator.validate_affordability
  rcases TradingValidator.validate_symbol symbol with e | u
  · exact ⟨st.price_service, rfl⟩
  · dsimp only
    rcases (st.price_service.get_price now symbol).1 with e | p
    · exact ⟨(st.price_service.get_price now symbol).2, rfl⟩
    · dsimp only
      split
      · exact ⟨(st.price_service.get_price now symbol).2, rfl⟩
      · exact ⟨(st.price_service.get_price now symbol).2, rfl⟩

/-- The validation stage of a sell changes nothing. -/
theorem validate_sell_frame (st : LedgerState) (symbol : String) (q : Int) :
    (TradingValidator.validate_sell st symbol q).2 = st := by
  unfold TradingValidator.validate_sell
  rcases TradingValidator.validate_symbol symbol with e | u
  · rfl
  · dsimp only
    rcases TradingValidator.validate_share_availability st symbol q with e | u
      <;> rfl

/-- Transaction construction never raises a division error. -/
theorem make_error_ne_div (i n a : Nat) (ty : TransactionType) (tot : ℚ)
    (sy : Option String) (qu : Option Int) (pp : Option ℚ)
    (stt : TransactionStatus) (fr : Option String) (e : Err)
    (h : Transaction.make i n a ty tot sy qu pp stt fr = Except.error e) :
    e ≠ Err.divisionByZero := by
  intro hdiv
  subst hdiv
  unfold Transaction.make at h
  split at h
  · simp at h
  · split at h
    · simp at h
    · split at h <;> simp at h

/-- Buy validation never raises a division error. -/
theorem validate_buy_error_ne_div (st : LedgerState) (now : Nat)
    (symbol : String) (q : Int) (e : Err)
    (h : (TradingValidator.validate_buy st now symbol q).1 = Except.error e) :
    e ≠ Err.divisionByZero := by
  intro hdiv
  subst hdiv
  unfold TradingValidator.validate_buy TradingValidator.validate_symbol at h
  by_cases hsym : symbol ∈ ["AAPL", "TSLA", "GOOGL"]
  · rw [if_pos hsym] at h
    dsimp only at h
    unfold TradingValidator.validate_affordability at h
    dsimp only at h
    split at h
    · dsimp only at h
      rename_i e1 heq
      obtain rfl := Except.error.inj h
      exact absurd (get_price_error_eq _ _ _ _ heq) (by simp)
    · split at h <;> simp at h
  · rw [if_neg hsym] at h
    simp at h

/-- The buy execution step never changes the lifetime totals, keeps the
balance non-negative, preserves positivity of stored holdings, and never
raises a division error from a positivity-invariant store. -/
theorem create_buy_spec (st : LedgerState) (now : Nat) (symbol : String)
    (q : Int) :
    (TradingService.create_buy_transaction st now symbol q).2.account.total_deposits
        = st.account.total_deposits
    ∧ (TradingService.create_buy_transaction st now symbol q).2.account.total_withdrawals
        = st.account.total_withdrawals
    ∧ (0 ≤ st.account.cash_balance →
        0 ≤ (TradingService.create_buy_transaction st now symbol q).2.account.cash_balance)
    ∧ (holdingsPos st →
        holdingsPos (TradingService.create_buy_transaction st now symbol q).2)
    ∧ (holdingsPos st →
        (TradingService.create_buy_transaction st now symbol q).1
          ≠ Except.error Err.divisionByZero) := by
  unfold TradingService.create_buy_transaction
  dsimp only
  rcases hgp : (st.price_service.get_price now symbol).1 with e | p
  · refine ⟨rfl, rfl, fun h => h, fun h => h, fun hst hc => ?_⟩
    obtain rfl := Except.error.inj hc
    exact absurd (get_price_error_eq _ _ _ _ hgp) (by simp)
  · dsimp only
    rcases update_account_balance_spec
        { st with price_service := (st.price_service.get_price now symbol).2 }
        (-(p * (q : ℚ))) with ⟨heq, hlt⟩ | ⟨heq, hge⟩
    · rw [heq]
      exact ⟨rfl, rfl, fun h => h, fun h => h, fun _ hc => by simp at hc⟩
    · rw [heq]
      dsimp only
      rcases huh : TradingService.update_holdings
          { st with
              account := { st.account with
                cash_balance := st.account.cash_balance + -(p * (q : ℚ)) },
              price_service := (st.price_service.get_price now symbol).2 }
          now symbol q p with ⟨r3, st3⟩
      have hspec := update_holdings_spec
          { st with
              account := { st.account with
                cash_balance := st.account.cash_balance + -(p * (q : ℚ)) },
              price_service := (st.price_service.get_price now symbol).2 }
          now symbol q p
      rw [huh] at hspec
      dsimp only at hspec
      obtain ⟨ha, hf, ht, hp, hn, hpos, hdiv⟩ := hspec
      rcases r3 with e3 | u3 <;> dsimp only
      · refine ⟨by rw [ha], by rw [ha], fun h0 => ?_, fun hst => hpos hst,
          fun hst hc => ?_⟩
        · rw [ha]
          exact hge
        · obtain rfl := Except.error.inj hc
          exact absurd rfl (hdiv hst)
      · rcases hmk : Transaction.make st3.next_id now st3.account.account_id
            TransactionType.BUY (p * (q : ℚ)) (some symbol) (some q) (some p)
            TransactionStatus.COMPLETED none with e4 | txn <;> dsimp only
        · refine ⟨by rw [ha], by rw [ha], fun h0 => ?_, fun hst => hpos hst,
            fun hst hc => ?_⟩
          · rw [ha]
            exact hge
          · obtain rfl := Except.error.inj hc
            exact absurd rfl (make_error_ne_div _ _ _ _ _ _ _ _ _ _ _ hmk)
        · refine ⟨by rw [ha], by rw [ha], fun h0 => ?_, fun hst kv hkv => ?_,
            fun hst hc => by simp at hc⟩
          · rw [ha]
            exact hge
          · exact hpos hst kv hkv

/-- The sell execution step never changes the lifetime totals, keeps the
balance non-negative, preserves positivity of stored holdings, and never
raises a division error from a positivity-invariant store. -/
theorem create_sell_spec (st : LedgerState) (now : Nat) (symbol : String)
    (q : Int) :
    (TradingService.create_sell_transaction st now symbol q).2.account.total_deposits
        = st.account.total_deposits
    ∧ (TradingService.create_sell_transaction st now symbol q).2.account.total_withdrawals
        = st.account.total_withdrawals
    ∧ (0 ≤ st.account.cash_balance →
        0 ≤ (TradingService.create_sell_transaction st now symbol q).2.account.cash_balance)
    ∧ (holdingsPos st →
        holdingsPos (TradingService.create_sell_transaction st now symbol q).2)
    ∧ (holdingsPos st →
        (TradingService.create_sell_transaction st now symbol q).1
          ≠ Except.error Err.divisionByZero) := by
  unfold TradingService.create_sell_transaction
  dsimp only
  rcases hgp : (st.price_service.get_price now symbol).1 with e | p
  · refine ⟨rfl, rfl, fun h => h, fun h => h, fun hst hc => ?_⟩
    obtain rfl := Except.error.inj hc
    exact absurd (get_price_error_eq _ _ _ _ hgp) (by simp)
  · dsimp only
    rcases update_account_balance_spec
        { st with price_service := (st.price_service.get_price now symbol).2 }
        (p * (q : ℚ)) with ⟨heq, hlt⟩ | ⟨heq, hge⟩
    · rw [heq]
      exact ⟨rfl, rfl, fun h => h, fun h => h, fun _ hc => by simp at hc⟩
    · rw [heq]
      dsimp only
      rcases huh : TradingService.update_holdings
          { st with
              account := { st.account with
                cash_balance := st.account.cash_balance + p * (q : ℚ) },
              price_service := (st.price_service.get_price now symbol).2 }
          now symbol (-q) p with ⟨r3, st3⟩
      have hspec := update_holdings_spec
          { st with
              account := { st.account with
                cash_balance := st.account.cash_balance + p * (q : ℚ) },
              price_service := (st.price_service.get_price now symbol).2 }
          now symbol (-q) p
      rw [huh] at hspec
      dsimp only at hspec
      obtain ⟨ha, hf, ht, hp, hn, hpos, hdiv⟩ := hspec
      rcases r3 with e3 | u3 <;> dsimp only
      · refine ⟨by rw [ha], by rw [ha], fun h0 => ?_, fun hst => hpos hst,
          fun hst hc => ?_⟩
        · rw [ha]
          exact hge
        · obtain rfl := Except.error.inj hc
          exact absurd rfl (hdiv hst)
      · rcases hmk : Transaction.make st3.next_id now st3.account.account_id
            TransactionType.SELL (p * (q : ℚ)) (some symbol) (some q) (some p)
            TransactionStatus.COMPLETED none with e4 | txn <;> dsimp only
        · refine ⟨by rw [ha], by rw [ha], fun h0 => ?_, fun hst => hpos hst,
            fun hst hc => ?_⟩
          · rw [ha]
            exact hge
          · obtain rfl := Except.error.inj hc
            exact absurd rfl (make_error_ne_div _ _ _ _ _ _ _ _ _ _ _ hmk)
        · refine ⟨by rw [ha], by rw [ha], fun h0 => ?_, fun hst kv hkv => ?_,
            fun hst hc => by simp at hc⟩
          · rw [ha]
            exact hge
          · exact hpos hst kv hkv

/-- Sell validation never raises a division error. -/
theorem validate_sell_error_ne_div (st : LedgerState) (symbol : String)
    (q : Int) (e : Err)
    (h : (TradingValidator.validate_sell st symbol q).1 = Except.error e) :
    e ≠ Err.divisionByZero := by
  intro hdiv
  subst hdiv
  unfold TradingValidator.validate_sell TradingValidator.validate_symbol
    TradingValidator.validate_share_availability at h
  by_cases hsym : symbol ∈ ["AAPL", "TSLA", "GOOGL"]
  · rw [if_pos hsym] at h
    dsimp only at h
    split at h
    · rename_i e1 heq
      dsimp only at h
      obtain rfl : e1 = Err.divisionByZero := by
        first
          | exact h
          | exact Except.error.inj h
      split at heq
      · simp at heq
      · split at heq <;> simp at heq
    · simp at h
  · rw [if_neg hsym] at h
    simp at h

/-- The buy operation never changes the lifetime totals, keeps the balance
non-negative, preserves positivity of stored holdings, and never raises a
division error from a positivity-invariant store. -/
theorem buy_shares_spec (st : LedgerState) (now : Nat) (symbol : String)
    (q : Int) :
    (TradingService.buy_shares st now symbol q).2.account.total_deposits
        = st.account.total_deposits
    ∧ (TradingService.buy_shares st now symbol q).2.account.total_withdrawals
        = st.account.total_withdrawals
    ∧ (0 ≤ st.account.cash_balance →
        0 ≤ (TradingService.buy_shares st now symbol q).2.account.cash_balance)
    ∧ (holdingsPos st →
        holdingsPos (TradingService.buy_shares st now symbol q).2)
    ∧ (holdingsPos st →
        (TradingService.buy_shares st now symbol q).1
          ≠ Except.error Err.divisionByZero) := by
  unfold TradingService.buy_shares
  rcases hv : TradingValidator.validate_buy st now symbol q with ⟨rv, stv⟩
  obtain ⟨ps, hframe⟩ := validate_buy_frame st now symbol q
  rw [hv] at hframe
  dsimp only at hframe
  subst hframe
  rcases rv with e | u <;> dsimp only
  · refine ⟨rfl, rfl, fun h => h, fun h => h, fun hst hc => ?_⟩
    obtain rfl := Except.error.inj hc
    exact absurd rfl (validate_buy_error_ne_div st now symbol q _ (by rw [hv]))
  · have hc := create_buy_spec { st with price_service := ps } now symbol q
    exact ⟨hc.1, hc.2.1, hc.2.2.1, hc.2.2.2.1, hc.2.2.2.2⟩

/-- The sell operation never changes the lifetime totals, keeps the balance
non-negative, preserves positivity of stored holdings, and never raises a
division error from a positivity-invariant store. -/
theorem sell_shares_spec (st : LedgerState) (now : Nat) (symbol : String)
    (q : Int) :
    (TradingService.sell_shares st now symbol q).2.account.total_deposits
        = st.account.total_deposits
    ∧ (TradingService.sell_shares st now symbol q).2.account.total_withdrawals
        = st.account.total_withdrawals
    ∧ (0 ≤ st.account.cash_balance →
        0 ≤ (TradingService.sell_shares st now symbol q).2.account.cash_balance)
    ∧ (holdingsPos st →
        holdingsPos (TradingService.sell_shares st now symbol q).2)
    ∧ (holdingsPos st →
        (TradingService.sell_shares st now symbol q).1
          ≠ Except.error Err.divisionByZero) := by
  unfold TradingService.sell_shares
  rcases hv : TradingValidator.validate_sell st symbol q with ⟨rv, stv⟩
  have hframe : stv = st := by
    have := validate_sell_frame st symbol q
    rw [hv] at this
    exact this
  rw [hframe]
  rcases rv with e | u <;> dsimp only
  · refine ⟨rfl, rfl, fun h => h, fun h => h, fun hst hc => ?_⟩
    obtain rfl := Except.error.inj hc
    exact absurd rfl (validate_sell_error_ne_div st symbol q _ (by rw [hv]))
  · exact create_sell_spec st now symbol q

/-- Per-operation ledger facts: the lifetime totals are monotone, equal on
failure, and change only through the corresponding successful funds
operation; the balance stays non-negative; holdings positivity is
preserved. -/
theorem runOp_facts (st : LedgerState) (op : Op) :
    st.account.total_deposits ≤ (runOp st op).2.account.total_deposits
    ∧ st.account.total_withdrawals
        ≤ (runOp st op).2.account.total_withdrawals
    ∧ (0 ≤ st.account.cash_balance →
        0 ≤ (runOp st op).2.account.cash_balance)
    ∧ (holdingsPos st → holdingsPos (runOp st op).2)
    ∧ ((runOp st op).1 ≠ Except.ok () →
        (runOp st op).2.account.total_deposits = st.account.total_deposits
        ∧ (runOp st op).2.account.total_withdrawals
            = st.account.total_withdrawals)
    ∧ ((runOp st op).2.account.total_deposits ≠ st.account.total_deposits →
        (∃ t a, op = Op.deposit t a) ∧ (runOp st op).1 = Except.ok ())
    ∧ ((runOp st op).2.account.total_withdrawals
          ≠ st.account.total_withdrawals →
        (∃ t a, op = Op.withdraw t a) ∧ (runOp st op).1 = Except.ok ()) := by
  rcases op with ⟨t, a⟩ | ⟨t, a⟩ | ⟨t, sy, q⟩ | ⟨t, sy, q⟩
  · by_cases hr : a < MIN_DEPOSIT_AMOUNT ∨ a > MAX_DEPOSIT_AMOUNT
    · have heq := (deposit_spec st t a).1 hr
      refine ⟨?_, ?_, ?_, ?_, ?_, ?_, ?_⟩ <;> try simp only [runOp, heq]
      all_goals
        first
          | exact le_refl _
          | exact fun h => h
          | exact fun _ => ⟨by trivial, by trivial⟩
          | exact fun hc => absurd (by trivial) hc
          | trivial
    · have heq := (deposit_spec st t a).2 hr
      have ha : (1 : ℚ) ≤ a := by
        unfold MIN_DEPOSIT_AMOUNT MAX_DEPOSIT_AMOUNT at hr
        push_neg at hr
        exact hr.1
      refine ⟨?_, ?_, ?_, ?_, ?_, ?_, ?_⟩ <;> try simp only [runOp, heq]
      all_goals try dsimp only
      all_goals
        first
          | exact le_refl _
          | exact fun h => h
          | (intros; linarith)
          | exact fun hc => absurd (by trivial) hc
          | exact fun _ => ⟨⟨t, a, rfl⟩, by trivial⟩
          | trivial
          | linarith
  · by_cases hr : a < MIN_WITHDRAWAL_AMOUNT ∨ a > 1000000
    · have heq := (withdraw_spec st t a).1 hr
      refine ⟨?_, ?_, ?_, ?_, ?_, ?_, ?_⟩ <;> try simp only [runOp, heq]
      all_goals
        first
          | exact le_refl _
          | exact fun h => h
          | exact fun _ => ⟨by trivial, by trivial⟩
          | exact fun hc => absurd (by trivial) hc
          | trivial
    · by_cases hb : st.account.cash_balance < a
      · have heq := (withdraw_spec st t a).2.1 hr hb
        refine ⟨?_, ?_, ?_, ?_, ?_, ?_, ?_⟩ <;> try simp only [runOp, heq]
        all_goals
          first
            | exact le_refl _
            | exact fun h => h
            | exact fun _ => ⟨by trivial, by trivial⟩
            | exact fun hc => absurd (by trivial) hc
            | trivial
      · have heq := (withdraw_spec st t a).2.2 hr hb
        have ha : (0 : ℚ) < a := by
          unfold MIN_WITHDRAWAL_AMOUNT at hr
          push_neg at hr
          nlinarith [hr.1]
        have hble := not_lt.mp hb
        refine ⟨?_, ?_, ?_, ?_, ?_, ?_, ?_⟩ <;> try simp only [runOp, heq]
        all_goals try dsimp only
        all_goals
          first
            | exact le_refl _
            | exact fun h => h
            | (intros; linarith)
            | exact fun hc => absurd (by trivial) hc
            | exact fun _ => ⟨⟨t, a, rfl⟩, by trivial⟩
            | trivial
            | linarith
  · have hs := buy_shares_spec st t sy q
    exact ⟨le_of_eq hs.1.symm, le_of_eq hs.2.1.symm, hs.2.2.1, hs.2.2.2.1,
      fun _ => ⟨hs.1, hs.2.1⟩, fun hc => absurd hs.1 hc,
      fun hc => absurd hs.2.1 hc⟩
  · have hs := sell_shares_spec st t sy q
    exact ⟨le_of_eq hs.1.symm, le_of_eq hs.2.1.symm, hs.2.2.1, hs.2.2.2.1,
      fun _ => ⟨hs.1, hs.2.1⟩, fun hc => absurd hs.1 hc,
      fun hc => absurd hs.2.1 hc⟩

/-- The combined invariant (non-negative balance and totals, positive
stored quantities) is preserved along any operation sequence. -/
theorem reach_invariant (ops : List Op) (st : LedgerState)
    (hb : 0 ≤ st.account.cash_balance)
    (hd : 0 ≤ st.account.total_deposits)
    (hw : 0 ≤ st.account.total_withdrawals)
    (hh : holdingsPos st) :
    0 ≤ (reachFrom st ops).account.cash_balance
    ∧ 0 ≤ (reachFrom st ops).account.total_deposits
    ∧ 0 ≤ (reachFrom st ops).account.total_withdrawals
    ∧ holdingsPos (reachFrom st ops) := by
  induction ops generalizing st with
  | nil => exact ⟨hb, hd, hw, hh⟩
  | cons op rest ih =>
      have hf := runOp_facts st op
      have h1 : reachFrom st (op :: rest) = reachFrom (runOp st op).2 rest := by
        simp [reachFrom, List.foldl_cons]
      rw [h1]
      exact ih (runOp st op).2 (hf.2.2.1 hb) (le_trans hd hf.1)
        (le_trans hw hf.2.1) (hf.2.2.2.1 hh)

/-- C4: starting from a freshly created account, after every operation of
every sequence the cash balance is non-negative; the lifetime deposit and
withdrawal totals are non-negative and non-decreasing across the next
operation, and they change only when the corresponding operation (deposit
for total_deposits, withdraw for total_withdrawals) completes
successfully. -/
theorem C4_funds_invariants (a u n : Nat) (ops : List Op) (op : Op) :
    let st := reachFrom (initState a u n) ops
    let r := runOp st op
    0 ≤ st.account.cash_balance
    ∧ 0 ≤ r.2.account.cash_balance
    ∧ 0 ≤ r.2.account.total_deposits
    ∧ 0 ≤ r.2.account.total_withdrawals
    ∧ st.account.total_deposits ≤ r.2.account.total_deposits
    ∧ st.account.total_withdrawals ≤ r.2.account.total_withdrawals
    ∧ (r.1 ≠ Except.ok () →
        r.2.account.total_deposits = st.account.total_deposits
        ∧ r.2.account.total_withdrawals = st.account.total_withdrawals)
    ∧ (r.2.account.total_deposits ≠ st.account.total_deposits →
        (∃ t amt, op = Op.deposit t amt) ∧ r.1 = Except.ok ())
    ∧ (r.2.account.total_withdrawals ≠ st.account.total_withdrawals →
        (∃ t amt, op = Op.withdraw t amt) ∧ r.1 = Except.ok ()) := by
  have hinit := reach_invariant ops (initState a u n) (le_refl 0) (le_refl 0)
    (le_refl 0) (by intro kv hkv; simp [initState] at hkv)
  obtain ⟨hb, hd, hw, hh⟩ := hinit
  have hf := runOp_facts (reachFrom (initState a u n) ops) op
  exact ⟨hb, hf.2.2.1 hb, le_trans hd hf.1, le_trans hw hf.2.1, hf.1,
    hf.2.1, hf.2.2.2.2.1, hf.2.2.2.2.2.1, hf.2.2.2.2.2.2⟩

/-- C5: in every state reachable from a fresh account, a holding is present
in the holdings store only with strictly positive quantity (iterating the
store never yields a zero-quantity position), and saving any holding whose
quantity has reached zero evicts its entry from the store, so presence in
the store coincides with strictly positive quantity. -/
theorem C5_present_iff_positive_quantity (a u n : Nat) (ops : List Op) :
    (∀ kv ∈ (reachFrom (initState a u n) ops).holdings, 0 < kv.2.quantity)
    ∧ (∀ (store : List (String × Holding)) (h : Holding), h.quantity = 0 →
        alistLookup (HoldingsRepository.save store h) h.symbol = none) := by
  constructor
  · exact (reach_invariant ops (initState a u n) (le_refl 0) (le_refl 0)
      (le_refl 0) (by intro kv hkv; simp [initState] at hkv)).2.2.2
  · intro store h hq
    unfold HoldingsRepository.save
    rw [if_neg (by omega : ¬ (0 < h.quantity))]
    by_cases hs : (alistLookup store h.symbol).isSome
    · rw [if_pos hs]
      exact alistLookup_erase_self store h.symbol
    · rw [if_neg hs]
      exact Option.not_isSome_iff_eq_none.mp hs

/-- Witness for C5 at a concrete input: saving a zero-quantity AAPL holding
into a store that contains it evicts the entry. -/
theorem C5_present_iff_positive_quantity_witness :
    alistLookup
      (HoldingsRepository.save
        [("AAPL", { account_id := 0, symbol := "AAPL", quantity := 3,
                    avg_cost_basis := 145, last_updated := 0 })]
        { account_id := 0, symbol := "AAPL", quantity := 0,
          avg_cost_basis := 145, last_updated := 1 }) "AAPL" = none :=
  (C5_present_iff_positive_quantity 0 0 0 []).2
    [("AAPL", { account_id := 0, symbol := "AAPL", quantity := 3,
                avg_cost_basis := 145, last_updated := 0 })]
    { account_id := 0, symbol := "AAPL", quantity := 0,
      avg_cost_basis := 145, last_updated := 1 } rfl

/-- C10: a buy_shares call from any reachable state never performs the
average-cost division with a zero divisor: the division-by-zero error is
never raised, whatever symbol and quantity are requested (including
quantity 0 on a symbol with no existing holding, which takes the
remove-shares branch and performs no division at all). -/
theorem C10_buy_never_divides_by_zero (a u n : Nat) (ops : List Op)
    (now : Nat) (symbol : String) (q : Int) :
    (TradingService.buy_shares (reachFrom (initState a u n) ops)
        now symbol q).1 ≠ Except.error Err.divisionByZero := by
  have hh : holdingsPos (reachFrom (initState a u n) ops) :=
    (reach_invariant ops (initState a u n) (le_refl 0) (le_refl 0)
      (le_refl 0) (by intro kv hkv; simp [initState] at hkv)).2.2.2
  exact (buy_shares_spec (reachFrom (initState a u n) ops) now symbol q).2.2.2.2 hh

/-- Witness for C10 at a concrete input: buying zero shares of AAPL from a
fresh account (no existing holding) does not raise a division error. -/
theorem C10_buy_never_divides_by_zero_witness :
    (TradingService.buy_shares (reachFrom (initState 0 0 0) [])
        0 "AAPL" 0).1 ≠ Except.error Err.divisionByZero :=
  C10_buy_never_divides_by_zero 0 0 0 [] 0 "AAPL" 0

/-- Witness for C4 at a concrete input: a withdrawal of 5 from a fresh
account (balance 0) fails, and the deposit total is unchanged by the failed
operation. -/
theorem C4_funds_invariants_witness :
    (runOp (reachFrom (initState 0 0 0) []) (Op.withdraw 0 5)).2.account.total_deposits
      = (reachFrom (initState 0 0 0) []).account.total_deposits :=
  ((C4_funds_invariants 0 0 0 [] (Op.withdraw 0 5)).2.2.2.2.2.2.1
    (by with_unfolding_all (exact of_decide_eq_true rfl))).1

/-- Full characterization of get_price: it succeeds exactly on supported
symbols; an unsupported symbol yields the unsupported-symbol error with
only the consultation counter changed; a supported symbol with a cache
entry younger than the TTL yields the cached price without touching the
cache; otherwise the static table value is returned and stored in the
cache with the current timestamp. -/
theorem get_price_spec (ps : PriceService) (now : Nat) (symbol : String) :
    isOkB (ps.get_price now symbol).1 = ps.is_supported_symbol symbol
    ∧ (ps.is_supported_symbol symbol = false →
        ps.get_price now symbol
          = (Except.error Err.unsupportedSymbol,
             { ps with calls := ps.calls + 1 }))
    ∧ (∀ price ts, ps.is_supported_symbol symbol = true →
        alistLookup ps.cache symbol = some (price, ts) →
        now - ts < ps.cache_ttl_minutes →
        ps.get_price now symbol
          = (Except.ok price, { ps with calls := ps.calls + 1 }))
    ∧ (ps.is_supported_symbol symbol = true →
        (alistLookup ps.cache symbol = none ∨
          ∃ price ts, alistLookup ps.cache symbol = some (price, ts)
            ∧ ¬ (now - ts < ps.cache_ttl_minutes)) →
        ps.get_price now symbol
          = (Except.ok ((alistLookup SIMULATED_PRICES symbol).getD 0),
             { ps with
                calls := ps.calls + 1,
                cache := alistSet ps.cache symbol
                    ((alistLookup SIMULATED_PRICES symbol).getD 0, now) })) := by
  unfold PriceService.get_price PriceService.fetch_price
    PriceService.update_cache PriceService.is_supported_symbol
  dsimp only
  by_cases hsup : ps.supported_symbols.contains symbol
  · rw [if_pos hsup]
    rcases hc : alistLookup ps.cache symbol with _ | pt
    · dsimp only
      refine ⟨by simp only [isOkB]; exact hsup.symm, fun hfalse => ?_,
        fun price ts _ hlk => ?_, fun _ _ => rfl⟩
      · rw [hsup] at hfalse
        simp at hfalse
      · simp at hlk
    · obtain ⟨price0, ts0⟩ := pt
      dsimp only
      by_cases httl : now - ts0 < ps.cache_ttl_minutes
      · rw [if_pos httl]
        refine ⟨by simp only [isOkB]; exact hsup.symm, fun hfalse => ?_,
          fun price ts _ hlk hts => ?_, fun _ hmiss => ?_⟩
        · rw [hsup] at hfalse
          simp at hfalse
        · have h12 := Option.some.inj hlk
          rw [Prod.mk.injEq] at h12
          obtain ⟨rfl, rfl⟩ := h12
          rfl
        · rcases hmiss with hnone | ⟨price, ts, hlk, hts⟩
          · simp at hnone
          · have h12 := Option.some.inj hlk
            rw [Prod.mk.injEq] at h12
            obtain ⟨rfl, rfl⟩ := h12
            exact absurd httl hts
      · rw [if_neg httl]
        refine ⟨by simp only [isOkB]; exact hsup.symm, fun hfalse => ?_,
          fun price ts _ hlk hts => ?_, fun _ _ => rfl⟩
        · rw [hsup] at hfalse
          simp at hfalse
        · have h12 := Option.some.inj hlk
          rw [Prod.mk.injEq] at h12
          obtain ⟨rfl, rfl⟩ := h12
          exact absurd hts httl
  · rw [if_neg hsup]
    have hsupf : ps.supported_symbols.contains symbol = false := by
      simpa using hsup
    refine ⟨by simp only [isOkB]; exact hsupf.symm, fun _ => rfl,
      fun price ts htrue => ?_, fun htrue => ?_⟩
    · rw [hsupf] at htrue
      exact absurd htrue (by simp)
    · rw [hsupf] at htrue
      exact absurd htrue (by simp)
/-- The price service call always increments the consultation counter by
one and never changes the supported set or the TTL. -/
theorem get_price_frame (ps : PriceService) (now : Nat) (symbol : String) :
    (ps.get_price now symbol).2.calls = ps.calls + 1
    ∧ (ps.get_price now symbol).2.supported_symbols = ps.supported_symbols
    ∧ (ps.get_price now symbol).2.cache_ttl_minutes = ps.cache_ttl_minutes := by
  unfold PriceService.get_price PriceService.fetch_price
    PriceService.update_cache
  dsimp only
  split
  · split
    · split <;> exact ⟨rfl, rfl, rfl⟩
    · exact ⟨rfl, rfl, rfl⟩
  · exact ⟨rfl, rfl, rfl⟩

/-- A second get_price call at the same instant returns the same price as
the first: either the first call hit the cache (which it leaves unchanged)
or it wrote the fetched value into the cache, where the second call finds
it (or re-reads the same static table when the TTL is zero). -/
theorem get_price_again (ps : PriceService) (now : Nat) (symbol : String)
    (p : ℚ) (h : (ps.get_price now symbol).1 = Except.ok p) :
    ((ps.get_price now symbol).2.get_price now symbol).1 = Except.ok p := by
  have hs := get_price_spec ps now symbol
  have hsup : ps.is_supported_symbol symbol = true := by
    rcases hb : ps.is_supported_symbol symbol
    · rw [(hs.2.1 hb)] at h
      simp at h
    · rfl
  have hsup2 : (ps.get_price now symbol).2.is_supported_symbol symbol = true := by
    unfold PriceService.is_supported_symbol at hsup ⊢
    rw [(get_price_frame ps now symbol).2.1]
    exact hsup
  rcases hc : alistLookup ps.cache symbol with _ | pt
  · -- miss: fetched and cached
    have h1 := hs.2.2.2 hsup (Or.inl hc)
    rw [h1] at h ⊢
    obtain rfl := Except.ok.inj h
    have hs2 := get_price_spec
      { ps with
        calls := ps.calls + 1,
        cache := alistSet ps.cache symbol
            ((alistLookup SIMULATED_PRICES symbol).getD 0, now) } now symbol
    by_cases httl : (0 : Nat) < ps.cache_ttl_minutes
    · rw [hs2.2.2.1 _ now hsup (alistLookup_set_self _ _ _)
        (by simpa using httl)]
    · rw [hs2.2.2.2 hsup (Or.inr ⟨_, now, alistLookup_set_self _ _ _,
        by simpa using httl⟩)]
  · by_cases httl : now - pt.2 < ps.cache_ttl_minutes
    · -- hit: cache unchanged
      have h1 := hs.2.2.1 pt.1 pt.2 hsup (by rw [hc]) httl
      rw [h1] at h ⊢
      obtain rfl := Except.ok.inj h
      have hs2 := get_price_spec { ps with calls := ps.calls + 1 } now symbol
      rw [hs2.2.2.1 _ pt.2 hsup (by rw [show ({ ps with
          calls := ps.calls + 1 } : PriceService).cache = ps.cache from rfl,
          hc]) httl]
    · -- expired: fetched and cached
      have h1 := hs.2.2.2 hsup (Or.inr ⟨pt.1, pt.2, by rw [hc], httl⟩)
      rw [h1] at h ⊢
      obtain rfl := Except.ok.inj h
      have hs2 := get_price_spec
        { ps with
          calls := ps.calls + 1,
          cache := alistSet ps.cache symbol
            ((alistLookup SIMULATED_PRICES symbol).getD 0, now) } now symbol
      by_cases httl2 : (0 : Nat) < ps.cache_ttl_minutes
      · rw [hs2.2.2.1 _ now hsup (alistLookup_set_self _ _ _)
          (by simpa using httl2)]
      · rw [hs2.2.2.2 hsup (Or.inr ⟨_, now, alistLookup_set_self _ _ _,
          by simpa using httl2⟩)]

/-- C9: get_price fails exactly when the symbol is outside the configured
supported set (and then with the unsupported-symbol error); for a supported
symbol, a cache entry whose age is within the TTL is returned as-is without
re-fetching or touching the cache; on a cache miss or an expired entry the
price is re-fetched from the static table, stored in the cache with a fresh
timestamp, and returned. -/
theorem C9_get_price_contract (ps : PriceService) (now : Nat)
    (symbol : String) :
    isOkB (ps.get_price now symbol).1 = ps.is_supported_symbol symbol
    ∧ (ps.is_supported_symbol symbol = false →
        ps.get_price now symbol
          = (Except.error Err.unsupportedSymbol,
             { ps with calls := ps.calls + 1 }))
    ∧ (∀ price ts, ps.is_supported_symbol symbol = true →
        alistLookup ps.cache symbol = some (price, ts) →
        now - ts < ps.cache_ttl_minutes →
        ps.get_price now symbol
          = (Except.ok price, { ps with calls := ps.calls + 1 }))
    ∧ (ps.is_supported_symbol symbol = true →
        (alistLookup ps.cache symbol = none ∨
          ∃ price ts, alistLookup ps.cache symbol = some (price, ts)
            ∧ ¬ (now - ts < ps.cache_ttl_minutes)) →
        ps.get_price now symbol
          = (Except.ok ((alistLookup SIMULATED_PRICES symbol).getD 0),
             { ps with
                calls := ps.calls + 1,
                cache := alistSet ps.cache symbol
                    ((alistLookup SIMULATED_PRICES symbol).getD 0, now) })) :=
  get_price_spec ps now symbol

/-- Witness for C9 at a concrete input: a fresh price service (empty cache)
asked for AAPL fetches the static table price. -/
theorem C9_get_price_contract_witness :
    PriceService.init.get_price 0 "AAPL"
      = (Except.ok ((alistLookup SIMULATED_PRICES "AAPL").getD 0),
         { PriceService.init with
            calls := PriceService.init.calls + 1,
            cache := alistSet PriceService.init.cache "AAPL"
                ((alistLookup SIMULATED_PRICES "AAPL").getD 0, 0) }) :=
  (C9_get_price_contract PriceService.init 0 "AAPL").2.2.2 rfl (Or.inl rfl)

/-- C6 amended: withdraw fails if and only if the amount is below the
minimum, above the literal 1000000 bound, or exceeds the balance; the
range check runs before the balance check, so an out-of-range amount is
rejected with the range error and the state unchanged; an in-range amount
exceeding the balance is rejected with the insufficient-balance error and
the state unchanged; otherwise the balance is decremented, the withdrawal
total incremented, a COMPLETED WITHDRAWAL transaction appended, and its
identifier returned. -/
theorem C6_withdraw_amended (st : LedgerState) (now : Nat) (amount : ℚ) :
    (isOkB (FundsService.withdraw st now amount).1 = false ↔
      (amount < MIN_WITHDRAWAL_AMOUNT ∨ amount > 1000000
        ∨ st.account.cash_balance < amount))
    ∧ ((amount < MIN_WITHDRAWAL_AMOUNT ∨ amount > 1000000) →
        (FundsService.withdraw st now amount).1
          = Except.error Err.amountOutOfRange
        ∧ (FundsService.withdraw st now amount).2 = st)
    ∧ (¬ (amount < MIN_WITHDRAWAL_AMOUNT ∨ amount > 1000000) →
        st.account.cash_balance < amount →
        (FundsService.withdraw st now amount).1
          = Except.error Err.insufficientBalance
        ∧ (FundsService.withdraw st now amount).2 = st)
    ∧ (¬ (amount < MIN_WITHDRAWAL_AMOUNT ∨ amount > 1000000) →
        ¬ (st.account.cash_balance < amount) →
        FundsService.withdraw st now amount
          = (Except.ok st.next_id,
             { st with
                account := { st.account with
                  cash_balance := st.account.cash_balance - amount,
                  total_withdrawals := st.account.total_withdrawals + amount },
                funds_transactions := st.funds_transactions ++
                  [{ transaction_id := st.next_id,
                     account_id := st.account.account_id,
                     transaction_type := TransactionType.WITHDRAWAL,
                     total_amount := amount, transaction_timestamp := now,
                     symbol := none, quantity := none,
                     price_per_share := none,
                     status := TransactionStatus.COMPLETED,
                     failure_reason := none }],
                next_id := st.next_id + 1 })) := by
  have hs := withdraw_spec st now amount
  refine ⟨⟨fun hfail => ?_, fun hcond => ?_⟩, fun h => ?_, fun h hb => ?_,
    fun h hb => hs.2.2 h hb⟩
  · by_cases hr : amount < MIN_WITHDRAWAL_AMOUNT ∨ amount > 1000000
    · rcases hr with h1 | h2
      · exact Or.inl h1
      · exact Or.inr (Or.inl h2)
    · by_cases hb : st.account.cash_balance < amount
      · exact Or.inr (Or.inr hb)
      · rw [hs.2.2 hr hb] at hfail
        simp [isOkB] at hfail
  · rcases hcond with h1 | h2 | h3
    · rw [hs.1 (Or.inl h1)]
      rfl
    · rw [hs.1 (Or.inr h2)]
      rfl
    · by_cases hr : amount < MIN_WITHDRAWAL_AMOUNT ∨ amount > 1000000
      · rw [hs.1 hr]
        rfl
      · rw [hs.2.1 hr h3]
        rfl
  · constructor
    · rw [hs.1 h]
    · rw [hs.1 h]
  · constructor
    · rw [hs.2.1 h hb]
    · rw [hs.2.1 h hb]

/-- Witness for the amended C6 at a concrete input: withdrawing 2000000
from a balance of 500 is rejected by the range check. -/
theorem C6_withdraw_amended_witness :
    (FundsService.withdraw
      { account := { account_id := 0, user_id := 0, cash_balance := 500,
                     total_deposits := 500, total_withdrawals := 0,
                     created_at := 0 },
        holdings := [], funds_transactions := [], trade_transactions := [],
        price_service := PriceService.init, next_id := 0 } 0 2000000).1
      = Except.error Err.amountOutOfRange :=
  ((C6_withdraw_amended
      { account := { account_id := 0, user_id := 0, cash_balance := 500,
                     total_deposits := 500, total_withdrawals := 0,
                     created_at := 0 },
        holdings := [], funds_transactions := [], trade_transactions := [],
        price_service := PriceService.init, next_id := 0 } 0 2000000).2.1
    (by norm_num)).1

/-- C7 amended: for every well-formed transaction, the derived records of
mark_as_completed and mark_as_failed copy account_id, transaction_type,
total_amount, symbol, quantity and price_per_share and set the new status
(clearing the failure reason on completion, recording it on failure), while
the identifier and the timestamp of the derived record are freshly
generated, not copied. -/
theorem C7_mark_amended (t : Transaction) (fresh_id now : Nat)
    (reason : String) (h : t.wf) :
    t.mark_as_completed fresh_id now
      = Except.ok { t with
          transaction_id := fresh_id,
          transaction_timestamp := now,
          status := TransactionStatus.COMPLETED,
          failure_reason := none }
    ∧ t.mark_as_failed fresh_id now reason
      = Except.ok { t with
          transaction_id := fresh_id,
          transaction_timestamp := now,
          status := TransactionStatus.FAILED,
          failure_reason := some reason } := by
  obtain ⟨hbs, hpos⟩ := h
  have h1 : ¬ ((t.transaction_type = TransactionType.BUY ∨
      t.transaction_type = TransactionType.SELL) ∧ t.symbol = none) := by
    rintro ⟨hty, hsy⟩
    exact (hbs hty).1 hsy
  have h2 : ¬ ((t.transaction_type = TransactionType.BUY ∨
      t.transaction_type = TransactionType.SELL) ∧ t.quantity = none) := by
    rintro ⟨hty, hqu⟩
    exact (hbs hty).2 hqu
  have h3 : ¬ (t.total_amount ≤ 0) := by linarith
  constructor
  · unfold Transaction.mark_as_completed Transaction.replace_status
      Transaction.make
    rw [if_neg h1, if_neg h2, if_neg h3]
  · unfold Transaction.mark_as_failed Transaction.replace_status
      Transaction.make
    rw [if_neg h1, if_neg h2, if_neg h3]

/-- Witness for the amended C7 at a concrete input: a PENDING deposit of
100 marked completed keeps its payload, clears the reason, and carries the
fresh identifier 5 and timestamp 9. -/
theorem C7_mark_amended_witness :
    Transaction.mark_as_completed
      { transaction_id := 0, account_id := 7,
        transaction_type := TransactionType.DEPOSIT, total_amount := 100,
        transaction_timestamp := 0, symbol := none, quantity := none,
        price_per_share := none, status := TransactionStatus.PENDING,
        failure_reason := none } 5 9
      = Except.ok
        { transaction_id := 5, account_id := 7,
          transaction_type := TransactionType.DEPOSIT, total_amount := 100,
          transaction_timestamp := 9, symbol := none, quantity := none,
          price_per_share := none, status := TransactionStatus.COMPLETED,
          failure_reason := none } :=
  (C7_mark_amended
    { transaction_id := 0, account_id := 7,
      transaction_type := TransactionType.DEPOSIT, total_amount := 100,
      transaction_timestamp := 0, symbol := none, quantity := none,
      price_per_share := none, status := TransactionStatus.PENDING,
      failure_reason := none } 5 9 "unused"
    ⟨by simp [Transaction.wf], by norm_num⟩).1

/-- A successful transaction construction returns exactly the record built
from the arguments. -/
theorem make_ok_eq (i n a : Nat) (ty : TransactionType) (tot : ℚ)
    (sy : Option String) (qu : Option Int) (pp : Option ℚ)
    (stt : TransactionStatus) (fr : Option String) (txn : Transaction)
    (h : Transaction.make i n a ty tot sy qu pp stt fr = Except.ok txn) :
    txn = { transaction_id := i, account_id := a, transaction_type := ty,
            total_amount := tot, transaction_timestamp := n, symbol := sy,
            quantity := qu, price_per_share := pp, status := stt,
            failure_reason := fr } := by
  unfold Transaction.make at h
  split at h
  · simp at h
  · split at h
    · simp at h
    · split at h
      · simp at h
      · exact (Except.ok.inj h).symm

/-- A successful buy validation leaves exactly the state with the cache of
the (single) affordability price fetch. -/
theorem validate_buy_ok_state (st : LedgerState) (now : Nat) (symbol : String)
    (q : Int)
    (h : (TradingValidator.validate_buy st now symbol q).1 = Except.ok ()) :
    (TradingValidator.validate_buy st now symbol q).2
      = { st with price_service := (st.price_service.get_price now symbol).2 } := by
  unfold TradingValidator.validate_buy TradingValidator.validate_affordability
    at h ⊢
  rcases hv : TradingValidator.validate_symbol symbol with e | u
  · rw [hv] at h
    simp at h
  · rw [hv] at h
    dsimp only at h ⊢
    rcases hgp : (st.price_service.get_price now symbol).1 with e | p
    all_goals rw [hgp] at h
    all_goals try simp at h
    dsimp only
    split <;> rfl

/-- A successful buy execution consulted the oracle through exactly one
further get_price call and appended one COMPLETED BUY transaction carrying
that price. -/
theorem create_buy_success_char (st : LedgerState) (now : Nat)
    (symbol : String) (q : Int) (p : ℚ)
    (hp : (st.price_service.get_price now symbol).1 = Except.ok p)
    (hok : (TradingService.create_buy_transaction st now symbol q).1
        = Except.ok ()) :
    (TradingService.create_buy_transaction st now symbol q).2.price_service
      = (st.price_service.get_price now symbol).2
    ∧ ∃ txn,
        (TradingService.create_buy_transaction st now symbol q).2.trade_transactions
          = st.trade_transactions ++ [txn]
        ∧ txn.price_per_share = some p
        ∧ txn.total_amount = p * (q : ℚ)
        ∧ txn.transaction_type = TransactionType.BUY
        ∧ txn.status = TransactionStatus.COMPLETED := by
  unfold TradingService.create_buy_transaction at hok ⊢
  dsimp only at hok ⊢
  rw [hp] at hok ⊢
  dsimp only at hok ⊢
  rcases update_account_balance_spec
      { st with price_service := (st.price_service.get_price now symbol).2 }
      (-(p * (q : ℚ))) with ⟨heq, hlt⟩ | ⟨heq, hge⟩
  · rw [heq] at hok
    simp at hok
  · rw [heq] at hok ⊢
    dsimp only at hok ⊢
    rcases huh : TradingService.update_holdings
        { st with
            account := { st.account with
              cash_balance := st.account.cash_balance + -(p * (q : ℚ)) },
            price_service := (st.price_service.get_price now symbol).2 }
        now symbol q p with ⟨r3, st3⟩
    rw [huh] at hok
    have hspec := update_holdings_spec
        { st with
            account := { st.account with
              cash_balance := st.account.cash_balance + -(p * (q : ℚ)) },
            price_service := (st.price_service.get_price now symbol).2 }
        now symbol q p
    rw [huh] at hspec
    dsimp only at hspec
    rcases r3 with e3 | u3
    · simp at hok
    · dsimp only at hok ⊢
      rcases hmk : Transaction.make st3.next_id now st3.account.account_id
          TransactionType.BUY (p * (q : ℚ)) (some symbol) (some q) (some p)
          TransactionStatus.COMPLETED none with e4 | txn
      all_goals rw [hmk] at hok
      · simp at hok
      · dsimp only
        refine ⟨hspec.2.2.2.1, txn, ?_, ?_, ?_, ?_, ?_⟩
        · rw [hspec.2.2.1]
        · rw [make_ok_eq _ _ _ _ _ _ _ _ _ _ _ hmk]
        · rw [make_ok_eq _ _ _ _ _ _ _ _ _ _ _ hmk]
        · rw [make_ok_eq _ _ _ _ _ _ _ _ _ _ _ hmk]
        · rw [make_ok_eq _ _ _ _ _ _ _ _ _ _ _ hmk]

/-- A successful sell execution consulted the oracle through exactly one
get_price call and appended one COMPLETED SELL transaction carrying that
price. -/
theorem create_sell_success_char (st : LedgerState) (now : Nat)
    (symbol : String) (q : Int) (p : ℚ)
    (hp : (st.price_service.get_price now symbol).1 = Except.ok p)
    (hok : (TradingService.create_sell_transaction st now symbol q).1
        = Except.ok ()) :
    (TradingService.create_sell_transaction st now symbol q).2.price_service
      = (st.price_service.get_price now symbol).2
    ∧ ∃ txn,
        (TradingService.create_sell_transaction st now symbol q).2.trade_transactions
          = st.trade_transactions ++ [txn]
        ∧ txn.price_per_share = some p
        ∧ txn.total_amount = p * (q : ℚ)
        ∧ txn.transaction_type = TransactionType.SELL
        ∧ txn.status = TransactionStatus.COMPLETED := by
  unfold TradingService.create_sell_transaction at hok ⊢
  dsimp only at hok ⊢
  rw [hp] at hok ⊢
  dsimp only at hok ⊢
  rcases update_account_balance_spec
      { st with price_service := (st.price_service.get_price now symbol).2 }
      (p * (q : ℚ)) with ⟨heq, hlt⟩ | ⟨heq, hge⟩
  · rw [heq] at hok
    simp at hok
  · rw [heq] at hok ⊢
    dsimp only at hok ⊢
    rcases huh : TradingService.update_holdings
        { st with
            account := { st.account with
              cash_balance := st.account.cash_balance + p * (q : ℚ) },
            price_service := (st.price_service.get_price now symbol).2 }
        now symbol (-q) p with ⟨r3, st3⟩
    rw [huh] at hok
    have hspec := update_holdings_spec
        { st with
            account := { st.account with
              cash_balance := st.account.cash_balance + p * (q : ℚ) },
            price_service := (st.price_service.get_price now symbol).2 }
        now symbol (-q) p
    rw [huh] at hspec
    dsimp only at hspec
    rcases r3 with e3 | u3
    · simp at hok
    · dsimp only at hok ⊢
      rcases hmk : Transaction.make st3.next_id now st3.account.account_id
          TransactionType.SELL (p * (q : ℚ)) (some symbol) (some q) (some p)
          TransactionStatus.COMPLETED none with e4 | txn
      all_goals rw [hmk] at hok
      · simp at hok
      · dsimp only
        refine ⟨hspec.2.2.2.1, txn, ?_, ?_, ?_, ?_, ?_⟩
        · rw [hspec.2.2.1]
        · rw [make_ok_eq _ _ _ _ _ _ _ _ _ _ _ hmk]
        · rw [make_ok_eq _ _ _ _ _ _ _ _ _ _ _ hmk]
        · rw [make_ok_eq _ _ _ _ _ _ _ _ _ _ _ hmk]
        · rw [make_ok_eq _ _ _ _ _ _ _ _ _ _ _ hmk]

/-- C2 amended: one buy_shares operation consults the price oracle twice
(once in the affordability validation, once in the execution step) and one
sell_shares operation consults it once (execution only); in both cases the
value obtained by the first fetch of the operation is the value used for
execution and recorded in the appended transaction, the buy re-fetch
returning the same value from the cache entry the first fetch read or
wrote (or from the same static table). -/
theorem C2_buy_fetches_twice_sell_once (st : LedgerState) (now : Nat)
    (symbol : String) (q : Int) (p : ℚ)
    (hp : (st.price_service.get_price now symbol).1 = Except.ok p) :
    ((TradingService.buy_shares st now symbol q).1 = Except.ok () →
      (TradingService.buy_shares st now symbol q).2.price_service.calls
        = st.price_service.calls + 2
      ∧ ∃ txn,
          (TradingService.buy_shares st now symbol q).2.trade_transactions
            = st.trade_transactions ++ [txn]
          ∧ txn.price_per_share = some p ∧ txn.total_amount = p * (q : ℚ))
    ∧ ((TradingService.sell_shares st now symbol q).1 = Except.ok () →
      (TradingService.sell_shares st now symbol q).2.price_service.calls
        = st.price_service.calls + 1
      ∧ ∃ txn,
          (TradingService.sell_shares st now symbol q).2.trade_transactions
            = st.trade_transactions ++ [txn]
          ∧ txn.price_per_share = some p ∧ txn.total_amount = p * (q : ℚ)) := by
  constructor
  · intro hok
    unfold TradingService.buy_shares at hok ⊢
    rcases hv : TradingValidator.validate_buy st now symbol q with ⟨rv, stv⟩
    rw [hv] at hok
    have hstv : stv = { st with
        price_service := (st.price_service.get_price now symbol).2 } := by
      have h2 := validate_buy_ok_state st now symbol q ?_
      · rw [hv] at h2
        exact h2
      · rw [hv]
        rcases rv with e | u
        · simp at hok
        · rfl
    rw [hstv] at hok ⊢
    rcases rv with e | u
    · simp at hok
    · dsimp only at hok ⊢
      have hp2 : (({ st with
          price_service := (st.price_service.get_price now symbol).2
            } : LedgerState).price_service.get_price now symbol).1
          = Except.ok p :=
        get_price_again st.price_service now symbol p hp
      have hchar := create_buy_success_char { st with
          price_service := (st.price_service.get_price now symbol).2 }
        now symbol q p hp2 hok
      constructor
      · rw [hchar.1]
        have hf1 := (get_price_frame st.price_service now symbol).1
        have hf2 := (get_price_frame
          (st.price_service.get_price now symbol).2 now symbol).1
        show ((st.price_service.get_price now symbol).2.get_price
            now symbol).2.calls = st.price_service.calls + 2
        rw [hf2, hf1]
      · obtain ⟨txn, h1, h2, h3, _, _⟩ := hchar.2
        refine ⟨txn, ?_, h2, h3⟩
        rw [h1]
  · intro hok
    unfold TradingService.sell_shares at hok ⊢
    rcases hv : TradingValidator.validate_sell st symbol q with ⟨rv, stv⟩
    rw [hv] at hok
    have hstv : stv = st := by
      have h2 := validate_sell_frame st symbol q
      rw [hv] at h2
      exact h2
    rw [hstv] at hok ⊢
    rcases rv with e | u
    · simp at hok
    · dsimp only at hok ⊢
      have hchar := create_sell_success_char st now symbol q p hp hok
      constructor
      · rw [hchar.1, (get_price_frame st.price_service now symbol).1]
      · obtain ⟨txn, h1, h2, h3, _, _⟩ := hchar.2
        exact ⟨txn, h1, h2, h3⟩

/-- Witness for the amended C2 at a concrete input: a successful buy of 5
AAPL after a deposit of 1000 increments the oracle consultation counter by
exactly two. -/
theorem C2_buy_fetches_twice_sell_once_witness :
    (TradingService.buy_shares stAfterDeposit1000 0 "AAPL" 5).2.price_service.calls
      = stAfterDeposit1000.price_service.calls + 2 :=
  ((C2_buy_fetches_twice_sell_once stAfterDeposit1000 0 "AAPL" 5 145
      (by with_unfolding_all (exact of_decide_eq_true rfl))).1
    buy_from_deposit1000_calls.1).1

/-- A successful buy validation implies the symbol is in the supported
list, the price fetch succeeded, and the total cost is affordable. -/
theorem validate_buy_ok_conditions (st : LedgerState) (now : Nat)
    (symbol : String) (q : Int)
    (h : (TradingValidator.validate_buy st now symbol q).1 = Except.ok ()) :
    symbol ∈ ["AAPL", "TSLA", "GOOGL"]
    ∧ ∃ p, (st.price_service.get_price now symbol).1 = Except.ok p
        ∧ ¬ (st.account.cash_balance < p * (q : ℚ)) := by
  unfold TradingValidator.validate_buy TradingValidator.validate_symbol
    TradingValidator.validate_affordability at h
  by_cases hsym : symbol ∈ ["AAPL", "TSLA", "GOOGL"]
  · rw [if_pos hsym] at h
    dsimp only at h
    refine ⟨hsym, ?_⟩
    rcases hgp : (st.price_service.get_price now symbol).1 with e | p
    all_goals rw [hgp] at h
    · simp at h
    · dsimp only at h
      split at h
      · simp at h
      · rename_i hcond
        exact ⟨p, rfl, hcond⟩
  · rw [if_neg hsym] at h
    simp at h

/-- A successful buy with no prior holding of the symbol: the quantity and
total cost are positive, the cost was affordable, the balance is debited by
exactly price times quantity, the new holding carries exactly the bought
quantity, and a further price fetch still returns the same price. -/
theorem buy_success_no_prior (st : LedgerState) (now : Nat) (symbol : String)
    (q : Int)
    (habs : alistLookup st.holdings symbol = none)
    (hbuy : (TradingService.buy_shares st now symbol q).1 = Except.ok ()) :
    symbol ∈ ["AAPL", "TSLA", "GOOGL"]
    ∧ ∃ p,
      (st.price_service.get_price now symbol).1 = Except.ok p
      ∧ 0 < q
      ∧ 0 < p * (q : ℚ)
      ∧ p * (q : ℚ) ≤ st.account.cash_balance
      ∧ (TradingService.buy_shares st now symbol q).2.account.cash_balance
          = st.account.cash_balance - p * (q : ℚ)
      ∧ (∃ hB, alistLookup
            (TradingService.buy_shares st now symbol q).2.holdings symbol
            = some hB ∧ hB.symbol = symbol ∧ hB.quantity = q)
      ∧ ((TradingService.buy_shares st now symbol q).2.price_service.get_price
            now symbol).1 = Except.ok p := by
  unfold TradingService.buy_shares at hbuy ⊢
  rcases hv : TradingValidator.validate_buy st now symbol q with ⟨rv, stv⟩
  rw [hv] at hbuy
  rcases rv with e | u
  · simp at hbuy
  · have hv1 : (TradingValidator.validate_buy st now symbol q).1
        = Except.ok () := by rw [hv]
    obtain ⟨hsym, p, hgp, hcond⟩ := validate_buy_ok_conditions st now symbol q hv1
    have hstv := validate_buy_ok_state st now symbol q hv1
    rw [hv] at hstv
    dsimp only at hstv
    rw [hstv] at hbuy ⊢
    try dsimp only at hbuy ⊢
    refine ⟨hsym, p, hgp, ?_⟩
    have hp2 : (({ st with
        price_service := (st.price_service.get_price now symbol).2
          } : LedgerState).price_service.get_price now symbol).1
        = Except.ok p := get_price_again st.price_service now symbol p hgp
    unfold TradingService.create_buy_transaction at hbuy ⊢
    try dsimp only at hbuy ⊢
    rw [hp2] at hbuy ⊢
    try dsimp only at hbuy ⊢
    rcases update_account_balance_spec
        { st with price_service :=
            ((st.price_service.get_price now symbol).2.get_price
              now symbol).2 }
        (-(p * (q : ℚ))) with ⟨heq, hlt⟩ | ⟨heq, hge⟩
    · rw [heq] at hbuy
      simp at hbuy
    · rw [heq] at hbuy ⊢
      try dsimp only at hbuy ⊢
      unfold TradingService.update_holdings at hbuy ⊢
      try dsimp only at hbuy ⊢
      rw [habs] at hbuy ⊢
      try dsimp only at hbuy ⊢
      by_cases hq : 0 < q
      · rw [if_pos hq] at hbuy ⊢
        unfold Holding.add_shares Holding.update_average_cost at hbuy ⊢
        try dsimp only at hbuy ⊢
        rw [if_neg (by omega : ¬ ((0 : Int) + q + q = 0))] at hbuy ⊢
        unfold HoldingsRepository.save at hbuy ⊢
        try dsimp only at hbuy ⊢
        rw [if_pos (by omega : (0 : Int) < 0 + q)] at hbuy ⊢
        unfold Transaction.make at hbuy ⊢
        try dsimp only at hbuy ⊢
        rw [if_neg (by simp : ¬ ((TransactionType.BUY = TransactionType.BUY ∨
            TransactionType.BUY = TransactionType.SELL) ∧
            (some symbol : Option String) = none))] at hbuy ⊢
        rw [if_neg (by simp : ¬ ((TransactionType.BUY = TransactionType.BUY ∨
            TransactionType.BUY = TransactionType.SELL) ∧
            (some q : Option Int) = none))] at hbuy ⊢
        by_cases htot : p * (q : ℚ) ≤ 0
        · rw [if_pos htot] at hbuy
          simp at hbuy
        · rw [if_neg htot] at hbuy ⊢
          dsimp only
          refine ⟨hq, lt_of_not_le htot, not_lt.mp hcond, by ring, ?_, ?_⟩
          · exact ⟨_, alistLookup_set_self _ _ _, rfl, by dsimp only; omega⟩
          · exact get_price_again _ now symbol p hp2
      · rw [if_neg hq] at hbuy
        unfold Holding.remove_shares at hbuy
        try dsimp only at hbuy
        by_cases hq2 : (0 : Int) < -q
        · rw [if_pos hq2] at hbuy
          simp at hbuy
        · rw [if_neg hq2] at hbuy
          try dsimp only at hbuy
          have hq0 : q = 0 := by omega
          subst hq0
          unfold HoldingsRepository.save at hbuy
          rw [if_neg (by omega : ¬ ((0 : Int) < 0 - -0))] at hbuy
          rw [if_neg (show ¬ ((alistLookup st.holdings symbol).isSome = true)
              by rw [habs]; simp)] at hbuy
          unfold Transaction.make at hbuy
          try dsimp only at hbuy
          rw [if_neg (by simp : ¬ ((TransactionType.BUY = TransactionType.BUY ∨
              TransactionType.BUY = TransactionType.SELL) ∧
              (some symbol : Option String) = none))] at hbuy
          rw [if_neg (by simp : ¬ ((TransactionType.BUY = TransactionType.BUY ∨
              TransactionType.BUY = TransactionType.SELL) ∧
              (some (0 : Int) : Option Int) = none))] at hbuy
          rw [if_pos (by norm_num : p * ((0 : Int) : ℚ) ≤ 0)] at hbuy
          simp at hbuy

/-- C8 amended: from a state with no holding of the symbol, a successful
buy of q shares followed by a successful sell of q shares at the same
instant (so the oracle returns the same price for both operations, by the
cache) restores the cash balance to its pre-buy value and leaves the
holdings store without an entry for the symbol. -/
theorem C8_roundtrip_amended (st : LedgerState) (now : Nat) (symbol : String)
    (q : Int)
    (habs : alistLookup st.holdings symbol = none)
    (hbuy : (TradingService.buy_shares st now symbol q).1 = Except.ok ())
    (hsell : (TradingService.sell_shares
        (TradingService.buy_shares st now symbol q).2 now symbol q).1
        = Except.ok ()) :
    (TradingService.sell_shares
        (TradingService.buy_shares st now symbol q).2 now symbol q).2.account.cash_balance
      = st.account.cash_balance
    ∧ alistLookup (TradingService.sell_shares
        (TradingService.buy_shares st now symbol q).2 now symbol
          q).2.holdings symbol = none := by
  obtain ⟨hsym, p, hgp1, hq, htotpos, haff, hbal, ⟨hB, hlkB, hBsym, hqB⟩, hgp3⟩ :=
    buy_success_no_prior st now symbol q habs hbuy
  set stB := (TradingService.buy_shares st now symbol q).2 with hstB
  unfold TradingService.sell_shares at hsell ⊢
  rcases hv : TradingValidator.validate_sell stB symbol q with ⟨rv, stv⟩
  rw [hv] at hsell
  have hstv : stv = stB := by
    have h2 := validate_sell_frame stB symbol q
    rw [hv] at h2
    exact h2
  rw [hstv] at hsell ⊢
  rcases rv with e | u
  · simp at hsell
  · dsimp only at hsell ⊢
    unfold TradingService.create_sell_transaction at hsell ⊢
    try dsimp only at hsell ⊢
    rw [hgp3] at hsell ⊢
    try dsimp only at hsell ⊢
    rcases update_account_balance_spec
        { stB with price_service :=
            (stB.price_service.get_price now symbol).2 }
        (p * (q : ℚ)) with ⟨heq, hlt⟩ | ⟨heq, hge⟩
    · rw [heq] at hsell
      simp at hsell
    · rw [heq] at hsell ⊢
      try dsimp only at hsell ⊢
      unfold TradingService.update_holdings at hsell ⊢
      try dsimp only at hsell ⊢
      rw [hlkB] at hsell ⊢
      try dsimp only at hsell ⊢
      rw [if_neg (by omega : ¬ ((0 : Int) < -q))] at hsell ⊢
      unfold Holding.remove_shares at hsell ⊢
      try dsimp only at hsell ⊢
      rw [if_neg (show ¬ (hB.quantity < - -q) by omega)] at hsell ⊢
      try dsimp only at hsell ⊢
      unfold HoldingsRepository.save at hsell ⊢
      try dsimp only at hsell ⊢
      rw [if_neg (show ¬ ((0 : Int) < hB.quantity - - -q) by omega)] at hsell ⊢
      rw [hBsym] at hsell ⊢
      rw [hlkB] at hsell ⊢
      rw [if_pos (show (some hB).isSome = true from rfl)] at hsell ⊢
      unfold Transaction.make at hsell ⊢
      try dsimp only at hsell ⊢
      rw [if_neg (by simp : ¬ ((TransactionType.SELL = TransactionType.BUY ∨
          TransactionType.SELL = TransactionType.SELL) ∧
          (some symbol : Option String) = none))] at hsell ⊢
      rw [if_neg (by simp : ¬ ((TransactionType.SELL = TransactionType.BUY ∨
          TransactionType.SELL = TransactionType.SELL) ∧
          (some q : Option Int) = none))] at hsell ⊢
      rw [if_neg (not_le.mpr htotpos)] at hsell ⊢
      try dsimp only
      constructor
      · show stB.account.cash_balance + p * (q : ℚ) = st.account.cash_balance
        rw [hbal]
        ring
      · show alistLookup (alistErase stB.holdings symbol) symbol = none
        exact alistLookup_erase_self _ _

/-- Witness for the amended C8 at a concrete input: after depositing 1000,
buying 5 AAPL and selling 5 AAPL at the same instant returns the balance to
1000 and removes the AAPL holding. -/
theorem C8_roundtrip_amended_witness :
    (TradingService.sell_shares
        (TradingService.buy_shares stAfterDeposit1000 0 "AAPL" 5).2
        0 "AAPL" 5).2.account.cash_balance
      = stAfterDeposit1000.account.cash_balance
    ∧ alistLookup (TradingService.sell_shares
        (TradingService.buy_shares stAfterDeposit1000 0 "AAPL" 5).2
        0 "AAPL" 5).2.holdings "AAPL" = none :=
  C8_roundtrip_amended stAfterDeposit1000 0 "AAPL" 5 rfl
    buy_from_deposit1000_calls.1
    (by with_unfolding_all (exact of_decide_eq_true rfl))
